import Mathlib

/-!
Verification of the motion state machine of the eurobot2025 simulator
(`robot/physics.py`, class `RobotPhysics`, driven by `main.py`).

The Python code works on IEEE floats; we embed it over `ℚ`, idealising the
arithmetic.  The four irrational primitives used by the code
(`math.sqrt`, `math.cos∘radians`, `math.sin∘radians`,
`degrees∘math.atan2`) are abstracted as a parameter structure `MathOps`;
concrete runs instantiate it with `exactOps`, whose components agree with
the real functions at every point where a concrete run below evaluates
them (perfect squares for `sqrt`, axis-aligned angles for the
trigonometric functions).
-/

namespace Eurobot

/-- Python's `%` operator on floats, for a positive modulus:
`a % b = a - b * floor (a / b)`. -/
def pymod (a b : ℚ) : ℚ := a - b * ⌊a / b⌋

/-- Python's `math.copysign x y`: `|x|` carrying the sign of `y`
(`y = 0` counts as positive, matching float `+0.0`). -/
def pycopysign (x y : ℚ) : ℚ := if y < 0 then -|x| else |x|

/-- `constants.DEFAULT_SPEED` (mm per second). -/
def DEFAULT_SPEED : ℚ := 500

/-- `constants.DEFAULT_ROTATION_SPEED` (degrees per second). -/
def DEFAULT_ROTATION_SPEED : ℚ := 90

/-- The rotation threshold `0.1` used in `RobotPhysics.update`. -/
def ROTATION_EPSILON : ℚ := 1/10

/-- The abstracted irrational primitives of the Python `math` module.
`cosd`/`sind` take degrees (the code always writes
`cos(radians a)` / `sin(radians a)`); `atan2d dy dx` is
`degrees (atan2 dy dx)`. -/
structure MathOps where
  sqrt : ℚ → ℚ
  cosd : ℚ → ℚ
  sind : ℚ → ℚ
  atan2d : ℚ → ℚ → ℚ

/-- `dataclass GotoParams` of `robot/physics.py`. -/
structure GotoParams where
  target_x : ℚ
  target_y : ℚ
  distance : ℚ
  final_angle : ℚ
deriving DecidableEq, Repr

/-- The mutable state of class `RobotPhysics` of `robot/physics.py`. -/
structure RobotPhysics where
  x : ℚ
  y : ℚ
  angle : ℚ
  speed : ℚ
  rotation_speed : ℚ
  target_x : Option ℚ
  target_y : Option ℚ
  target_angle : Option ℚ
  moving : Bool
  goto_state : ℕ
  goto_params : Option GotoParams
deriving DecidableEq, Repr

/-- `RobotPhysics.__init__(speed_multiplier)`. -/
def mkRobotPhysics (speed_multiplier : ℚ) : RobotPhysics :=
  { x := 0
    y := 0
    angle := 0
    speed := DEFAULT_SPEED * speed_multiplier
    rotation_speed := DEFAULT_ROTATION_SPEED * speed_multiplier
    target_x := none
    target_y := none
    target_angle := none
    moving := false
    goto_state := 0
    goto_params := none }

/-- `RobotPhysics.normalize_angle`: normalize an angle into `[0, 360)`. -/
def normalize_angle (angle : ℚ) : ℚ := pymod angle 360

/-- The shortest-path normalization expression used by `update`:
`(x + 180) % 360 - 180`. -/
def nd (x : ℚ) : ℚ := pymod (x + 180) 360 - 180

/-- The `angle_diff` expression of `RobotPhysics.update`:
`(target - angle + 180) % 360 - 180`. -/
def angle_diff (target angle : ℚ) : ℚ := nd (target - angle)

/-- `RobotPhysics.calculate_angle_to_point`. -/
def calculate_angle_to_point (ops : MathOps) (s : RobotPhysics)
    (target_x target_y : ℚ) : ℚ :=
  normalize_angle (ops.atan2d (target_y - s.y) (target_x - s.x))

/-- `RobotPhysics.set_position`. -/
def set_position (s : RobotPhysics) (x y angle : ℚ) : RobotPhysics :=
  { s with
    x := x
    y := y
    angle := normalize_angle angle
    target_x := none
    target_y := none
    target_angle := none
    moving := false
    goto_state := 0
    goto_params := none }

/-- `RobotPhysics.move_to(y, x, final_angle)` — note the parameter order
of the source: the first parameter is the y coordinate. -/
def move_to (ops : MathOps) (s : RobotPhysics) (y x final_angle : ℚ) :
    RobotPhysics :=
  let dx := x - s.x
  let dy := y - s.y
  let distance := ops.sqrt (dx*dx + dy*dy)
  let angle_to_target := calculate_angle_to_point ops s x y
  { s with
    target_angle := some angle_to_target
    target_x := some s.x
    target_y := some s.y
    moving := true
    goto_state := 1
    goto_params := some
      { target_x := x
        target_y := y
        distance := distance
        final_angle := normalize_angle final_angle } }

/-- `RobotPhysics.rotate(angle_delta)`. -/
def rotate (s : RobotPhysics) (angle_delta : ℚ) : RobotPhysics :=
  { s with
    target_angle := some (normalize_angle (s.angle + angle_delta))
    target_x := none
    target_y := none
    moving := true
    goto_state := 3
    goto_params := none }

/-- `RobotPhysics.move_forward(distance)`. -/
def move_forward (ops : MathOps) (s : RobotPhysics) (distance : ℚ) :
    RobotPhysics :=
  { s with
    target_x := some (s.x + distance * ops.cosd s.angle)
    target_y := some (s.y + distance * ops.sind s.angle)
    target_angle := none
    moving := true
    goto_state := 0
    goto_params := none }

/-- `RobotPhysics.is_moving`. -/
def is_moving (s : RobotPhysics) : Bool := s.moving

/-- `RobotPhysics.get_position`. -/
def get_position (s : RobotPhysics) : ℚ × ℚ × ℚ := (s.x, s.y, s.angle)

/-- `RobotPhysics.update(dt)`.  The two `| none => ...` branches marked
unreachable correspond to places where the Python code would dereference
`self.goto_params` while it is `None` and raise `AttributeError`; they are
unreachable through the public API (every command that sets
`goto_state` to 1 also sets `goto_params`, and state 2 only arises from
state 1). -/
def update (ops : MathOps) (s : RobotPhysics) (dt : ℚ) : RobotPhysics :=
  if s.moving = false then s
  else
    -- Handle rotation
    let sr :=
      match s.target_angle with
      | none => s
      | some ta =>
        let ad := angle_diff ta s.angle
        if ROTATION_EPSILON < |ad| then
          let rotation := min (s.rotation_speed * dt) |ad|
          { s with angle := normalize_angle (s.angle + pycopysign rotation ad) }
        else
          let s2 := { s with angle := ta, target_angle := none }
          if s2.goto_state = 0 then
            { s2 with moving := false }
          else if s2.goto_state = 1 then
            match s2.goto_params with
            | some p =>
              { s2 with
                target_x := some p.target_x
                target_y := some p.target_y
                goto_state := 2 }
            | none => s2  -- unreachable: Python raises AttributeError here
          else if s2.goto_state = 3 then
            { s2 with goto_state := 0, goto_params := none, moving := false }
          else s2
    -- Handle position movement
    let st :=
      match sr.target_x, sr.target_y with
      | some tx, some ty =>
        let dx := tx - sr.x
        let dy := ty - sr.y
        let distance := ops.sqrt (dx*dx + dy*dy)
        if 0 < distance then
          let move_distance := min (sr.speed * dt) distance
          let s4 :=
            { sr with
              x := sr.x + dx / distance * move_distance
              y := sr.y + dy / distance * move_distance }
          if distance ≤ move_distance then
            let s5 :=
              { s4 with
                x := tx
                y := ty
                target_x := none
                target_y := none }
            if s5.goto_state = 2 then
              match s5.goto_params with
              | some p =>
                { s5 with
                  target_angle := some p.final_angle
                  goto_state := 3 }
              | none => s5  -- unreachable: Python raises AttributeError here
            else s5
          else s4
        else sr
      | _, _ => sr
    -- Update moving state
    if st.goto_state = 0 then
      { st with moving := st.target_x.isSome || st.target_angle.isSome }
    else st

/-- `n` consecutive calls of `update(dt)` (the Sequencer's wait loop in
`main.py` repeatedly calls `update` until `is_moving()` is false). -/
def run (ops : MathOps) (dt : ℚ) (n : ℕ) (s : RobotPhysics) : RobotPhysics :=
  (fun st => update ops st dt)^[n] s

/-- Number of `update(dt)` calls until `is_moving()` first turns false,
searching up to `fuel` calls (`none` when the bound is exhausted). -/
def ticksToStop (ops : MathOps) (dt : ℚ) : ℕ → RobotPhysics → Option ℕ
  | 0, s => if s.moving then none else some 0
  | fuel+1, s =>
    if s.moving = false then some 0
    else Option.map (· + 1) (ticksToStop ops dt fuel (update ops s dt))

/-- Total heading distance traversed over `n` ticks: the sum of the
shortest-arc magnitudes of the per-tick heading changes. -/
def travSum (ops : MathOps) (dt : ℚ) : ℕ → RobotPhysics → ℚ
  | 0, _ => 0
  | n+1, s =>
    |angle_diff (update ops s dt).angle s.angle| +
      travSum ops dt n (update ops s dt)

/-- `math.cos (math.radians a)` at the axis-aligned angles (exact in
Python for `a = 0`; the off-table values are never consulted by the
concrete runs below). -/
def cosdTable (a : ℚ) : ℚ :=
  if a = 0 then 1 else if a = 90 then 0
  else if a = 180 then -1 else if a = 270 then 0 else 0

/-- `math.sin (math.radians a)` at the axis-aligned angles. -/
def sindTable (a : ℚ) : ℚ :=
  if a = 0 then 0 else if a = 90 then 1
  else if a = 180 then 0 else if a = 270 then -1 else 0

/-- `math.degrees (math.atan2 dy dx)` on the coordinate axes (exact in
Python: `atan2 0 0 = 0`, `degrees (atan2 5 0) = 90.0`, …). -/
def atan2dTable (dy dx : ℚ) : ℚ :=
  if dx = 0 ∧ dy = 0 then 0
  else if dx = 0 then (if 0 < dy then 90 else -90)
  else if dy = 0 then (if 0 < dx then 0 else 180)
  else 0

/-- Concrete `MathOps` used for explicit runs: `Rat.sqrt` agrees with the
real square root on perfect squares of rationals
(`Rat.sqrt_eq : Rat.sqrt (q * q) = |q|`), and the tables agree with the
real trigonometric functions at every point where the runs below
evaluate them. -/
def exactOps : MathOps :=
  { sqrt := Rat.sqrt
    cosd := cosdTable
    sind := sindTable
    atan2d := atan2dTable }

theorem run_zero (ops : MathOps) (dt : ℚ) (s : RobotPhysics) :
    run ops dt 0 s = s := rfl

theorem run_succ (ops : MathOps) (dt : ℚ) (n : ℕ) (s : RobotPhysics) :
    run ops dt (n+1) s = run ops dt n (update ops s dt) := by
  unfold run
  exact Function.iterate_succ_apply _ _ _

theorem run_add (ops : MathOps) (dt : ℚ) (m n : ℕ) (s : RobotPhysics) :
    run ops dt (m + n) s = run ops dt m (run ops dt n s) := by
  unfold run
  rw [Function.iterate_add_apply]

theorem run_fixed (ops : MathOps) (dt : ℚ) {s : RobotPhysics}
    (h : update ops s dt = s) : ∀ n, run ops dt n s = s := by
  intro n
  induction n with
  | zero => rfl
  | succ k ih => rw [run_succ, h, ih]

/-! ### Arithmetic facts about the normalization expressions -/

theorem pymod_eq_fract {b : ℚ} (hb : b ≠ 0) (a : ℚ) :
    pymod a b = b * Int.fract (a / b) := by
  unfold pymod Int.fract
  rw [mul_sub, mul_div_cancel₀ _ hb]

theorem pymod_nonneg (a : ℚ) {b : ℚ} (hb : 0 < b) : 0 ≤ pymod a b := by
  rw [pymod_eq_fract hb.ne' a]
  exact mul_nonneg hb.le (Int.fract_nonneg _)

theorem pymod_lt (a : ℚ) {b : ℚ} (hb : 0 < b) : pymod a b < b := by
  rw [pymod_eq_fract hb.ne' a]
  calc b * Int.fract (a / b) < b * 1 :=
        (mul_lt_mul_left hb).2 (Int.fract_lt_one _)
    _ = b := mul_one b

theorem pymod_eq_self {a b : ℚ} (h0 : 0 ≤ a) (h1 : a < b) : pymod a b = a := by
  have hb : (0:ℚ) < b := lt_of_le_of_lt h0 h1
  have : ⌊a / b⌋ = 0 := by
    rw [Int.floor_eq_zero_iff]
    constructor
    · exact div_nonneg h0 hb.le
    · rw [div_lt_one hb]; exact h1
  unfold pymod
  rw [this]
  push_cast
  ring

theorem pymod_add_int_mul (a b : ℚ) (k : ℤ) :
    pymod (a + b * k) b = pymod a b := by
  rcases eq_or_ne b 0 with hb | hb
  · simp [pymod, hb]
  · unfold pymod
    rw [add_div, mul_comm b (k:ℚ), mul_div_assoc, div_self hb, mul_one,
      Int.floor_add_int]
    push_cast
    ring

theorem pymod_eval0 {a b : ℚ} (h0 : 0 ≤ a) (h1 : a < b) : pymod a b = a :=
  pymod_eq_self h0 h1

theorem pymod_eval1 {a b : ℚ} (h0 : b ≤ a) (h1 : a < b + b) :
    pymod a b = a - b := by
  have hb : (0:ℚ) < b := by linarith
  have hf : ⌊a / b⌋ = 1 := by
    rw [Int.floor_eq_iff]
    constructor
    · push_cast
      rw [le_div_iff₀ hb]
      linarith
    · push_cast
      rw [div_lt_iff₀ hb]
      linarith
  unfold pymod
  rw [hf]
  push_cast
  ring

theorem pymod_evalm1 {a b : ℚ} (hb : 0 < b) (h0 : -b ≤ a) (h1 : a < 0) :
    pymod a b = a + b := by
  have hf : ⌊a / b⌋ = -1 := by
    rw [Int.floor_eq_iff]
    constructor
    · push_cast
      rw [le_div_iff₀ hb]
      linarith
    · push_cast
      rw [div_lt_iff₀ hb]
      linarith
  unfold pymod
  rw [hf]
  push_cast
  ring

theorem ratSqrt_zero : Rat.sqrt 0 = 0 := by norm_num

theorem ratSqrt_25 : Rat.sqrt 25 = 5 := by norm_num

/-- `Rat.sqrt` is exact on squares of nonnegative rationals, as the real
square root is. -/
theorem ratSqrt_sq {q : ℚ} (h : 0 ≤ q) : Rat.sqrt (q * q) = q := by
  rw [Rat.sqrt_eq, abs_of_nonneg h]

theorem normalize_angle_nonneg (a : ℚ) : 0 ≤ normalize_angle a :=
  pymod_nonneg a (by norm_num)

theorem normalize_angle_lt (a : ℚ) : normalize_angle a < 360 :=
  pymod_lt a (by norm_num)

theorem normalize_angle_sub_int_mul (a : ℚ) (k : ℤ) :
    normalize_angle (a + 360 * k) = normalize_angle a :=
  pymod_add_int_mul a 360 k

/-- `normalize_angle a` differs from `a` by an integer multiple of 360. -/
theorem normalize_angle_eq_add (a : ℚ) :
    ∃ k : ℤ, normalize_angle a = a + 360 * k := by
  refine ⟨-⌊a / 360⌋, ?_⟩
  unfold normalize_angle pymod
  push_cast
  ring

theorem nd_lb (x : ℚ) : -180 ≤ nd x := by
  have := pymod_nonneg (x + 180) (b := 360) (by norm_num)
  unfold nd
  linarith

theorem nd_ub (x : ℚ) : nd x < 180 := by
  have := pymod_lt (x + 180) (b := 360) (by norm_num)
  unfold nd
  linarith

theorem nd_abs_le (x : ℚ) : |nd x| ≤ 180 :=
  abs_le.2 ⟨nd_lb x, (nd_ub x).le⟩

theorem nd_fixed {x : ℚ} (h0 : -180 ≤ x) (h1 : x < 180) : nd x = x := by
  unfold nd
  rw [pymod_eq_self (by linarith) (by linarith)]
  ring

theorem nd_add_int_mul (x : ℚ) (k : ℤ) : nd (x + 360 * k) = nd x := by
  unfold nd
  rw [show x + 360 * (k:ℚ) + 180 = (x + 180) + 360 * k by ring,
    pymod_add_int_mul]

/-- `nd x` differs from `x` by an integer multiple of 360. -/
theorem nd_eq_add (x : ℚ) : ∃ k : ℤ, nd x = x + 360 * k := by
  refine ⟨-⌊(x + 180) / 360⌋, ?_⟩
  unfold nd pymod
  push_cast
  ring

theorem nd_congr {x z : ℚ} (h : ∃ k : ℤ, x = z + 360 * k) : nd x = nd z := by
  obtain ⟨k, hk⟩ := h
  rw [hk, nd_add_int_mul]

theorem angle_diff_lb (t a : ℚ) : -180 ≤ angle_diff t a := nd_lb _

theorem angle_diff_ub (t a : ℚ) : angle_diff t a < 180 := nd_ub _

theorem abs_angle_diff_le (t a : ℚ) : |angle_diff t a| ≤ 180 := nd_abs_le _

/-- Shortest-path normalization of a displacement whose magnitude is at
most 180 keeps the magnitude. -/
theorem abs_nd_of_abs_le {x : ℚ} (h : |x| ≤ 180) : |nd x| = |x| := by
  rcases lt_or_eq_of_le (abs_le.1 h).2 with h1 | h1
  · rw [nd_fixed (abs_le.1 h).1 h1]
  · rw [h1]
    norm_num [nd, pymod]

/-! ### Claim C5 -/

/-- Claim C5 counterexample: the normalization expression used by
`update` sends a raw difference of 180° to `-180`, not `+180`; in
particular its value is not in the half-open interval `(-180, 180]`. -/
theorem C5_counterexample :
    angle_diff 180 0 = -180 ∧ ¬ (-180 < angle_diff 180 0) := by
  constructor
  · norm_num [angle_diff, nd, pymod]
  · norm_num [angle_diff, nd, pymod]

/-- Claim C5 (amended): the shortest-path normalization
`(diff + 180) % 360 - 180` used by `update` always lands in the
half-open interval `[-180, 180)`; a raw difference equivalent to 180°
normalizes to `-180` (not `+180`). -/
theorem C5_angle_diff_range :
    (∀ t a : ℚ, -180 ≤ angle_diff t a ∧ angle_diff t a < 180) ∧
      angle_diff 180 0 = -180 := by
  refine ⟨fun t a => ⟨angle_diff_lb t a, angle_diff_ub t a⟩, ?_⟩
  norm_num [angle_diff, nd, pymod]

/-! ### Claim C2 -/

/-- Claim C2 counterexample: after `move_forward`, `goto_state` is 0
(`IDLE`) while `moving` (the value returned by `is_moving`) is `true` —
the state is not `MOVING_FORWARD`, and `is_moving` is not equivalent to
`goto_state ≠ IDLE`. -/
theorem C2_counterexample :
    (move_forward exactOps (mkRobotPhysics 1) 100).goto_state = 0 ∧
      is_moving (move_forward exactOps (mkRobotPhysics 1) 100) = true := by
  constructor <;> rfl

/-- Claim C2 (amended): `move_forward` from any state sets the `moving`
flag (so `is_moving` returns true) but leaves `goto_state = 0` (`IDLE`)
— the code tracks a pure translation with the `IDLE` state value, and
`is_moving` reports the `moving` flag rather than `goto_state ≠ IDLE`. -/
theorem C2_move_forward_state :
    ∀ (ops : MathOps) (s : RobotPhysics) (d : ℚ),
      (move_forward ops s d).moving = true ∧
        (move_forward ops s d).goto_state = 0 ∧
        is_moving (move_forward ops s d) = (move_forward ops s d).moving := by
  intro ops s d
  exact ⟨rfl, rfl, rfl⟩

/-! ### Claim C3 -/

/-- Claim C3 counterexample: with the robot in motion after
`move_forward(100)` (so not `Idle`), issuing `rotate(90)` raises no
error: it is applied, overwriting the in-progress translation (the
position target is dropped and a heading target installed). -/
theorem C3_counterexample :
    is_moving (move_forward exactOps (mkRobotPhysics 1) 100) = true ∧
      (rotate (move_forward exactOps (mkRobotPhysics 1) 100) 90).target_angle
          = some 90 ∧
      (rotate (move_forward exactOps (mkRobotPhysics 1) 100) 90).target_x
          = none ∧
      (rotate (move_forward exactOps (mkRobotPhysics 1) 100) 90).goto_state
          = 3 := by
  refine ⟨rfl, ?_, rfl, rfl⟩
  show some (normalize_angle (0 + 90)) = some 90
  norm_num [normalize_angle, pymod]

/-- Claim C3 (amended): the code performs no `Idle` check: a command
issued while the Motion Core is moving is silently applied, overwriting
the in-progress motion (here `rotate`, which installs its heading target,
drops any position target and resets `goto_params`), rather than raising
a usage error. -/
theorem C3_commands_overwrite :
    ∀ (s : RobotPhysics) (delta : ℚ),
      is_moving s = true →
        rotate s delta =
          { s with
            target_angle := some (normalize_angle (s.angle + delta))
            target_x := none
            target_y := none
            moving := true
            goto_state := 3
            goto_params := none } := by
  intro s delta _
  rfl

/-- Witness for C3: the amended statement applied at a concrete moving
state. -/
theorem C3_commands_overwrite_witness :
    rotate (move_forward exactOps (mkRobotPhysics 1) 100) 90 =
      { move_forward exactOps (mkRobotPhysics 1) 100 with
        target_angle :=
          some (normalize_angle
            ((move_forward exactOps (mkRobotPhysics 1) 100).angle + 90))
        target_x := none
        target_y := none
        moving := true
        goto_state := 3
        goto_params := none } :=
  C3_commands_overwrite (move_forward exactOps (mkRobotPhysics 1) 100) 90 rfl

/-! ### Claim C9 -/

/-- A `move_forward` whose computed target equals the current position is
a fixpoint of `update`: the tick changes nothing. -/
theorem update_move_forward_fixed (ops : MathOps) (s : RobotPhysics)
    (d dt : ℚ) (hs0 : ops.sqrt 0 = 0)
    (hx : d * ops.cosd s.angle = 0) (hy : d * ops.sind s.angle = 0) :
    update ops (move_forward ops s d) dt = move_forward ops s d := by
  obtain ⟨x, y, angle, sp, rs, tx, ty, ta, mv, gs, gp⟩ := s
  simp only [move_forward] at hx hy ⊢
  simp only [update, hx, hy, add_zero, sub_self, mul_zero, zero_mul,
    zero_add, hs0, lt_self_iff_false, if_false, Option.isSome_some,
    Bool.true_or, Bool.or_true, if_true]
  rfl

/-- Claim C9: if the target computed by `move_forward` coincides with the
current position (in particular for distance 0), every subsequent
`update(dt)` leaves the whole state unchanged, so `is_moving()` stays
true forever and the wait-until-complete loop of `Simulation.run` never
terminates. -/
theorem C9_zero_forward_never_completes :
    ∀ (ops : MathOps) (s : RobotPhysics) (d dt : ℚ),
      ops.sqrt 0 = 0 →
      s.x + d * ops.cosd s.angle = s.x →
      s.y + d * ops.sind s.angle = s.y →
      ∀ n : ℕ,
        run ops dt n (move_forward ops s d) = move_forward ops s d ∧
          is_moving (run ops dt n (move_forward ops s d)) = true := by
  intro ops s d dt hs0 hx hy n
  have hx0 : d * ops.cosd s.angle = 0 := by linarith
  have hy0 : d * ops.sind s.angle = 0 := by linarith
  have hfix :
      run ops dt n (move_forward ops s d) = move_forward ops s d :=
    run_fixed ops dt (update_move_forward_fixed ops s d dt hs0 hx0 hy0) n
  exact ⟨hfix, by rw [hfix]; rfl⟩

/-- Witness for C9: `move_forward 0` from the freshly constructed robot,
three ticks at the default `dt = 1/60`. -/
theorem C9_zero_forward_never_completes_witness :
    run exactOps (1/60) 3 (move_forward exactOps (mkRobotPhysics 1) 0) =
        move_forward exactOps (mkRobotPhysics 1) 0 ∧
      is_moving
        (run exactOps (1/60) 3 (move_forward exactOps (mkRobotPhysics 1) 0))
        = true :=
  C9_zero_forward_never_completes exactOps (mkRobotPhysics 1) 0 (1/60)
    ratSqrt_zero (by norm_num) (by norm_num) 3

/-! ### Claim C1 -/

/-- The state in which a zero-distance goto gets stuck: heading snapped
to the bearing 0 (`atan2(0,0) = 0`), `goto_state = 2`
(`MOVING_FORWARD`), position target equal to the current position,
`moving = True`. -/
def stuckZeroGoto : RobotPhysics :=
  { x := 0
    y := 0
    angle := 0
    speed := 500
    rotation_speed := 90
    target_x := some 0
    target_y := some 0
    target_angle := none
    moving := true
    goto_state := 2
    goto_params := some
      { target_x := 0, target_y := 0, distance := 0, final_angle := 90 } }

/-- Claim C1 (code bug): a `move_to` to the current position executes the
initial rotation (to bearing `atan2(0,0) = 0`), then enters
`MOVING_FORWARD` and never leaves it: because the translation code only
acts when `distance > 0`, the zero-distance snap never happens, the
final-rotation phase to the requested heading never starts, and
`is_moving()` stays true for every subsequent tick and any `dt`. -/
theorem C1_zero_distance_goto_stuck :
    ∀ (dt : ℚ) (n : ℕ),
      run exactOps dt (n+1) (move_to exactOps (mkRobotPhysics 1) 0 0 90) =
          stuckZeroGoto ∧
        is_moving
          (run exactOps dt (n+1)
            (move_to exactOps (mkRobotPhysics 1) 0 0 90)) = true ∧
        (run exactOps dt (n+1)
            (move_to exactOps (mkRobotPhysics 1) 0 0 90)).goto_state = 2 ∧
        (run exactOps dt (n+1)
            (move_to exactOps (mkRobotPhysics 1) 0 0 90)).angle ≠
          normalize_angle 90 := by
  intro dt n
  have h1 :
      update exactOps (move_to exactOps (mkRobotPhysics 1) 0 0 90) dt =
        stuckZeroGoto := by
    norm_num [update, move_to, mkRobotPhysics, calculate_angle_to_point,
      exactOps, atan2dTable, stuckZeroGoto, angle_diff, nd, normalize_angle,
      pymod_eval0, pycopysign, ROTATION_EPSILON, ratSqrt_zero, DEFAULT_SPEED,
      DEFAULT_ROTATION_SPEED]
  have h2 : update exactOps stuckZeroGoto dt = stuckZeroGoto := by
    norm_num [update, stuckZeroGoto, angle_diff, nd, normalize_angle,
      pymod_eval0, pycopysign, ROTATION_EPSILON, ratSqrt_zero, exactOps]
  have hrun :
      run exactOps dt (n+1) (move_to exactOps (mkRobotPhysics 1) 0 0 90) =
        stuckZeroGoto := by
    rw [run_succ, h1]
    exact run_fixed exactOps dt h2 n
  refine ⟨hrun, ?_, ?_, ?_⟩
  · rw [hrun]; rfl
  · rw [hrun]; rfl
  · rw [hrun]
    show (0:ℚ) ≠ normalize_angle 90
    rw [show normalize_angle 90 = 90 from
      pymod_eq_self (by norm_num) (by norm_num)]
    norm_num

theorem run_one (ops : MathOps) (dt : ℚ) (s : RobotPhysics) :
    run ops dt 1 s = update ops s dt := by
  rw [run_succ, run_zero]

theorem run_succ' (ops : MathOps) (dt : ℚ) (n : ℕ) (s : RobotPhysics) :
    run ops dt (n+1) s = update ops (run ops dt n s) dt := by
  unfold run
  exact Function.iterate_succ_apply' _ _ _

/-- During the rotation phase of a goto, the pending position target
equals the current position (or is absent); `update` keeps positions
unchanged on such a tick. -/
def targets_match_position (s : RobotPhysics) : Prop :=
  s.target_angle.isSome = true →
    (s.target_x = some s.x ∧ s.target_y = some s.y) ∨
      s.target_x = none ∨ s.target_y = none

/-- Claim C4 (amended): on a tick that starts with an outstanding
rotation target whose normalized difference exceeds `ROTATION_EPSILON`,
the position does not change, provided any pending position target
equals the current position (which holds in every state the commands can
reach while a rotation is outstanding).  On the tick where the rotation
completes, however, the translation phase is not skipped: the heading is
snapped and the position may advance in the same tick. -/
theorem C4_rotating_tick_keeps_position :
    ∀ (ops : MathOps) (s : RobotPhysics) (dt ta : ℚ),
      targets_match_position s →
      s.target_angle = some ta →
      ROTATION_EPSILON < |angle_diff ta s.angle| →
      (update ops s dt).x = s.x ∧ (update ops s dt).y = s.y := by
  intro ops s dt ta hinv hta hrot
  by_cases hm : s.moving = false
  · simp [update, hm]
  · rw [Bool.not_eq_false] at hm
    rcases hinv (by rw [hta]; rfl) with ⟨hx, hy⟩ | hx | hy
    · simp only [update, hm, Bool.true_eq_false, if_false, hta, hrot, if_true,
        hx, hy, sub_self, mul_zero, zero_add, zero_mul, zero_div, add_zero]
      split_ifs <;> cases s.goto_params <;> simp
    · simp only [update, hm, Bool.true_eq_false, if_false, hta, hrot, if_true, hx]
      split_ifs <;> cases s.goto_params <;> simp
    · simp only [update, hm, Bool.true_eq_false, if_false, hta, hrot, if_true, hy]
      split_ifs <;> cases s.goto_params <;> simp

/-- Witness for C4: the amended statement applied on the first tick of
the same goto (rotation target 90 outstanding, difference 90 above the
threshold): the position is unchanged. -/
theorem C4_rotating_tick_keeps_position_witness :
    targets_match_position (move_to exactOps (mkRobotPhysics 1) 5 0 0) ∧
      ((update exactOps (move_to exactOps (mkRobotPhysics 1) 5 0 0)
            (1/60)).x =
          (move_to exactOps (mkRobotPhysics 1) 5 0 0).x ∧
        (update exactOps (move_to exactOps (mkRobotPhysics 1) 5 0 0)
            (1/60)).y =
          (move_to exactOps (mkRobotPhysics 1) 5 0 0).y) := by
  have hinv : targets_match_position
      (move_to exactOps (mkRobotPhysics 1) 5 0 0) := by
    intro _
    left
    exact ⟨by norm_num [move_to, mkRobotPhysics], by norm_num [move_to, mkRobotPhysics]⟩
  refine ⟨hinv, C4_rotating_tick_keeps_position exactOps _ (1/60) 90 hinv ?_ ?_⟩
  · norm_num [move_to, mkRobotPhysics, calculate_angle_to_point, exactOps,
      atan2dTable, normalize_angle, pymod_eval0]
  · norm_num [move_to, mkRobotPhysics, calculate_angle_to_point, exactOps,
      atan2dTable, angle_diff, nd, normalize_angle, pymod_eval0,
      ROTATION_EPSILON]

/-! ### Pure-rotation runs (rotate command) -/

/-- The state shape maintained while a `FINAL_ROTATION` phase is in
progress: a standalone `rotate` command (`gp = none`) or the closing
phase of a goto (`gp = some params`). -/
def mkRotState (x0 y0 sp rs : ℚ) (gp : Option GotoParams) (T a : ℚ) :
    RobotPhysics :=
  { x := x0, y := y0, angle := a, speed := sp, rotation_speed := rs,
    target_x := none, target_y := none, target_angle := some T,
    moving := true, goto_state := 3, goto_params := gp }

/-- The terminal state of a completed `rotate` command. -/
def doneRotState (x0 y0 sp rs T : ℚ) : RobotPhysics :=
  { x := x0, y := y0, angle := T, speed := sp, rotation_speed := rs,
    target_x := none, target_y := none, target_angle := none,
    moving := false, goto_state := 0, goto_params := none }

theorem rotate_eq_mkRot (s : RobotPhysics) (delta : ℚ) :
    rotate s delta =
      mkRotState s.x s.y s.speed s.rotation_speed none
        (normalize_angle (s.angle + delta)) s.angle := by
  cases s
  rfl

theorem update_mkRot_step (ops : MathOps) (dt x0 y0 sp rs T a : ℚ)
    (gp : Option GotoParams)
    (hd : ROTATION_EPSILON < |angle_diff T a|) :
    update ops (mkRotState x0 y0 sp rs gp T a) dt =
      mkRotState x0 y0 sp rs gp T
        (normalize_angle
          (a + pycopysign (min (rs * dt) |angle_diff T a|) (angle_diff T a))) := by
  simp [update, mkRotState, hd]

theorem update_mkRot_snap (ops : MathOps) (dt x0 y0 sp rs T a : ℚ)
    (gp : Option GotoParams)
    (hd : ¬ ROTATION_EPSILON < |angle_diff T a|) :
    update ops (mkRotState x0 y0 sp rs gp T a) dt =
      doneRotState x0 y0 sp rs T := by
  simp [update, mkRotState, doneRotState, hd]

theorem update_doneRot (ops : MathOps) (dt x0 y0 sp rs T : ℚ) :
    update ops (doneRotState x0 y0 sp rs T) dt =
      doneRotState x0 y0 sp rs T := by
  simp [update, doneRotState]

/-- If a state is a fixpoint of `update`, it accumulates no heading
traversal. -/
theorem travSum_fixed (ops : MathOps) (dt : ℚ) {s : RobotPhysics}
    (h : update ops s dt = s) : ∀ n, travSum ops dt n s = 0 := by
  intro n
  induction n with
  | zero => rfl
  | succ k ih =>
    show |angle_diff (update ops s dt).angle s.angle| +
        travSum ops dt k (update ops s dt) = 0
    rw [h, ih]
    have : angle_diff s.angle s.angle = 0 := by
      unfold angle_diff
      rw [sub_self]
      exact nd_fixed (by norm_num) (by norm_num)
    rw [this]
    norm_num

/-- One rotation step: the normalized difference decreases by exactly
the clamped step `min rdt |d|`, the traversed arc equals that step, and
no overshoot occurs. -/
theorem diff_step (T a rdt : ℚ) (hrdt : 0 ≤ rdt) :
    angle_diff T
        (normalize_angle
          (a + pycopysign (min rdt |angle_diff T a|) (angle_diff T a))) =
      angle_diff T a -
        pycopysign (min rdt |angle_diff T a|) (angle_diff T a) ∧
    |angle_diff T a -
        pycopysign (min rdt |angle_diff T a|) (angle_diff T a)| =
      |angle_diff T a| - min rdt |angle_diff T a| ∧
    |nd (normalize_angle
          (a + pycopysign (min rdt |angle_diff T a|) (angle_diff T a)) - a)| =
      min rdt |angle_diff T a| := by
  set d := angle_diff T a with hdDef
  set r := min rdt |d| with hrDef
  have hr0 : 0 ≤ r := le_min hrdt (abs_nonneg d)
  have hrd : r ≤ |d| := min_le_right _ _
  have hdlb : -180 ≤ d := nd_lb _
  have hdub : d < 180 := nd_ub _
  have hdabs : |d| ≤ 180 := nd_abs_le _
  have hr180 : r ≤ 180 := le_trans hrd hdabs
  have hz : pycopysign r d = if d < 0 then -r else r := by
    unfold pycopysign
    rw [abs_of_nonneg hr0]
  have hd2 : d = T - a + 360 * (⌊(T - a + 180) / 360⌋ : ℤ) * (-1) := by
    rw [hdDef]
    show nd (T - a) = _
    unfold nd pymod
    ring
  obtain ⟨m, hm⟩ : ∃ m : ℤ, d = T - a + 360 * (m : ℚ) :=
    ⟨-⌊(T - a + 180) / 360⌋, by rw [hd2]; push_cast; ring⟩
  obtain ⟨k, hk⟩ := normalize_angle_eq_add (a + pycopysign r d)
  have hsplit : angle_diff T (normalize_angle (a + pycopysign r d)) =
      nd (d - pycopysign r d) := by
    show nd (T - normalize_angle (a + pycopysign r d)) = _
    rw [hk]
    have h1 : T - (a + pycopysign r d + 360 * (k:ℚ)) =
        d - pycopysign r d + 360 * ((-k - m : ℤ) : ℚ) := by
      rw [hm]
      push_cast
      ring
    rw [h1, nd_add_int_mul]
  have hstepnd : nd (normalize_angle (a + pycopysign r d) - a) =
      nd (pycopysign r d) := by
    rw [hk]
    have h2 : a + pycopysign r d + 360 * (k:ℚ) - a =
        pycopysign r d + 360 * (k:ℚ) := by ring
    rw [h2, nd_add_int_mul]
  by_cases hdneg : d < 0
  · have hzneg : pycopysign r d = -r := by rw [hz, if_pos hdneg]
    have hrle : r ≤ -d := by rw [abs_of_neg hdneg] at hrd; exact hrd
    have hfix : nd (d - pycopysign r d) = d + r := by
      rw [hzneg, sub_neg_eq_add]
      exact nd_fixed (by linarith) (by linarith)
    refine ⟨?_, ?_, ?_⟩
    · rw [hsplit, hfix, hzneg]
      ring
    · rw [hzneg, sub_neg_eq_add, abs_of_neg hdneg,
        abs_of_nonpos (by linarith : d + r ≤ 0)]
      ring
    · rw [hstepnd, hzneg,
        show nd (-r) = -r from nd_fixed (by linarith) (by linarith),
        abs_neg, abs_of_nonneg hr0]
  · push_neg at hdneg
    have hzpos : pycopysign r d = r := by rw [hz, if_neg (not_lt.2 hdneg)]
    have hrle : r ≤ d := by rw [abs_of_nonneg hdneg] at hrd; exact hrd
    have hfix : nd (d - pycopysign r d) = d - r := by
      rw [hzpos]
      exact nd_fixed (by linarith) (by linarith)
    refine ⟨?_, ?_, ?_⟩
    · rw [hsplit, hfix, hzpos]
    · rw [hzpos, abs_of_nonneg (by linarith : (0:ℚ) ≤ d - r),
        abs_of_nonneg hdneg]
    · rw [hstepnd, hzpos,
        show nd r = r from nd_fixed (by linarith) (by linarith),
        abs_of_nonneg hr0]

/-- Upper master lemma for pure rotation: if the initial normalized
difference is at most `ε + k·(rs·dt)`, the rotation completes within
`k+1` ticks, ending exactly at the target heading, and the total heading
traversal equals the initial difference magnitude. -/
theorem rot_run_upper (ops : MathOps) (dt x0 y0 sp rs T : ℚ)
    (hR : 0 ≤ rs * dt) (gp : Option GotoParams) :
    ∀ (k : ℕ) (a : ℚ),
      |angle_diff T a| ≤ ROTATION_EPSILON + k * (rs * dt) →
      run ops dt (k+1) (mkRotState x0 y0 sp rs gp T a) =
          doneRotState x0 y0 sp rs T ∧
        travSum ops dt (k+1) (mkRotState x0 y0 sp rs gp T a) =
          |angle_diff T a| := by
  intro k
  induction k with
  | zero =>
    intro a ha
    have hd : ¬ ROTATION_EPSILON < |angle_diff T a| := by push_cast at ha; linarith
    have hu := update_mkRot_snap ops dt x0 y0 sp rs T a gp hd
    constructor
    · rw [run_one, hu]
    · show |angle_diff (update ops (mkRotState x0 y0 sp rs gp T a) dt).angle a| +
          travSum ops dt 0 (update ops (mkRotState x0 y0 sp rs gp T a) dt) =
        |angle_diff T a|
      rw [hu]
      show |angle_diff T a| + 0 = |angle_diff T a|
      ring
  | succ k ih =>
    intro a ha
    by_cases hd : ROTATION_EPSILON < |angle_diff T a|
    · have hu := update_mkRot_step ops dt x0 y0 sp rs T a gp hd
      obtain ⟨hnew, habs, hstep⟩ := diff_step T a (rs * dt) hR
      set aNext := normalize_angle
        (a + pycopysign (min (rs * dt) |angle_diff T a|) (angle_diff T a))
        with haNext
      have hnext : |angle_diff T aNext| ≤
          ROTATION_EPSILON + k * (rs * dt) := by
        rw [hnew, habs]
        push_cast at ha
        rcases le_total (rs * dt) |angle_diff T a| with hm | hm
        · rw [min_eq_left hm]
          linarith
        · rw [min_eq_right hm]
          have hk : (0:ℚ) ≤ k * (rs * dt) := by positivity
          have : (0:ℚ) < ROTATION_EPSILON := by norm_num [ROTATION_EPSILON]
          linarith
      obtain ⟨ihr, iht⟩ := ih aNext hnext
      constructor
      · rw [run_succ, hu, ihr]
      · show |angle_diff (update ops (mkRotState x0 y0 sp rs gp T a) dt).angle a| +
            travSum ops dt (k+1) (update ops (mkRotState x0 y0 sp rs gp T a) dt) =
          |angle_diff T a|
        rw [hu]
        show |angle_diff aNext a| + travSum ops dt (k+1)
            (mkRotState x0 y0 sp rs gp T aNext) = |angle_diff T a|
        rw [iht, hnew, habs]
        have : |angle_diff aNext a| = min (rs * dt) |angle_diff T a| := by
          unfold angle_diff
          exact hstep
        rw [this]
        ring
    · have hu := update_mkRot_snap ops dt x0 y0 sp rs T a gp hd
      constructor
      · rw [run_succ, hu]
        exact run_fixed ops dt (update_doneRot ops dt x0 y0 sp rs T) (k+1)
      · show |angle_diff (update ops (mkRotState x0 y0 sp rs gp T a) dt).angle a| +
            travSum ops dt (k+1) (update ops (mkRotState x0 y0 sp rs gp T a) dt) =
          |angle_diff T a|
        rw [hu]
        show |angle_diff T a| + travSum ops dt (k+1)
            (doneRotState x0 y0 sp rs T) = |angle_diff T a|
        rw [travSum_fixed ops dt (update_doneRot ops dt x0 y0 sp rs T)]
        ring

/-- Lower master lemma for pure rotation: while the normalized
difference still exceeds `ε + k·(rs·dt)`, the robot is still moving at
every tick up to `k+1`. -/
theorem rot_run_lower (ops : MathOps) (dt x0 y0 sp rs T : ℚ)
    (hR : 0 ≤ rs * dt) (gp : Option GotoParams) :
    ∀ (k : ℕ) (a : ℚ),
      ROTATION_EPSILON + k * (rs * dt) < |angle_diff T a| →
      ∀ n : ℕ, n ≤ k + 1 →
        is_moving (run ops dt n (mkRotState x0 y0 sp rs gp T a)) = true := by
  intro k
  induction k with
  | zero =>
    intro a ha n hn
    interval_cases n
    · rfl
    · have hd : ROTATION_EPSILON < |angle_diff T a| := by push_cast at ha; linarith
      rw [run_one, update_mkRot_step ops dt x0 y0 sp rs T a gp hd]
      rfl
  | succ k ih =>
    intro a ha n hn
    have hε : (0:ℚ) < ROTATION_EPSILON := by norm_num [ROTATION_EPSILON]
    have hkR : (0:ℚ) ≤ k * (rs * dt) := by positivity
    have hRd : rs * dt ≤ |angle_diff T a| := by push_cast at ha; linarith
    have hd : ROTATION_EPSILON < |angle_diff T a| := by push_cast at ha; linarith
    cases n with
    | zero => rfl
    | succ j =>
      have hu := update_mkRot_step ops dt x0 y0 sp rs T a gp hd
      obtain ⟨hnew, habs, _⟩ := diff_step T a (rs * dt) hR
      set aNext := normalize_angle
        (a + pycopysign (min (rs * dt) |angle_diff T a|) (angle_diff T a))
        with haNext
      have hnext : ROTATION_EPSILON + k * (rs * dt) < |angle_diff T aNext| := by
        rw [hnew, habs, min_eq_left hRd]
        push_cast at ha
        linarith
      rw [run_succ, hu]
      exact ih aNext hnext j (by omega)

/-- Reachable shapes of a pure-rotation run: still rotating, or done. -/
theorem rot_run_cases (ops : MathOps) (dt x0 y0 sp rs T : ℚ)
    (gp : Option GotoParams) :
    ∀ (n : ℕ) (a : ℚ),
      (∃ b, run ops dt n (mkRotState x0 y0 sp rs gp T a) =
          mkRotState x0 y0 sp rs gp T b) ∨
        run ops dt n (mkRotState x0 y0 sp rs gp T a) =
          doneRotState x0 y0 sp rs T := by
  intro n
  induction n with
  | zero => intro a; exact Or.inl ⟨a, rfl⟩
  | succ k ih =>
    intro a
    by_cases hd : ROTATION_EPSILON < |angle_diff T a|
    · rw [run_succ, update_mkRot_step ops dt x0 y0 sp rs T a gp hd]
      exact ih _
    · rw [run_succ, update_mkRot_snap ops dt x0 y0 sp rs T a gp hd]
      exact Or.inr (run_fixed ops dt (update_doneRot ops dt x0 y0 sp rs T) k)

/-- The heading traversal of a pure-rotation run never exceeds the
initial normalized difference magnitude. -/
theorem rot_trav_le (ops : MathOps) (dt x0 y0 sp rs T : ℚ)
    (hR : 0 ≤ rs * dt) (gp : Option GotoParams) :
    ∀ (n : ℕ) (a : ℚ),
      travSum ops dt n (mkRotState x0 y0 sp rs gp T a) ≤ |angle_diff T a| := by
  intro n
  induction n with
  | zero => intro a; exact abs_nonneg _
  | succ k ih =>
    intro a
    by_cases hd : ROTATION_EPSILON < |angle_diff T a|
    · have hu := update_mkRot_step ops dt x0 y0 sp rs T a gp hd
      obtain ⟨hnew, habs, hstep⟩ := diff_step T a (rs * dt) hR
      set aNext := normalize_angle
        (a + pycopysign (min (rs * dt) |angle_diff T a|) (angle_diff T a))
        with haNext
      show |angle_diff (update ops (mkRotState x0 y0 sp rs gp T a) dt).angle a| +
          travSum ops dt k (update ops (mkRotState x0 y0 sp rs gp T a) dt) ≤
        |angle_diff T a|
      rw [hu]
      show |angle_diff aNext a| + travSum ops dt k
          (mkRotState x0 y0 sp rs gp T aNext) ≤ |angle_diff T a|
      have h1 : |angle_diff aNext a| = min (rs * dt) |angle_diff T a| := hstep
      have h2 := ih aNext
      rw [hnew, habs] at h2
      rw [h1]
      linarith
    · have hu := update_mkRot_snap ops dt x0 y0 sp rs T a gp hd
      show |angle_diff (update ops (mkRotState x0 y0 sp rs gp T a) dt).angle a| +
          travSum ops dt k (update ops (mkRotState x0 y0 sp rs gp T a) dt) ≤
        |angle_diff T a|
      rw [hu]
      show |angle_diff T a| + travSum ops dt k
          (doneRotState x0 y0 sp rs T) ≤ |angle_diff T a|
      rw [travSum_fixed ops dt (update_doneRot ops dt x0 y0 sp rs T)]
      linarith [abs_nonneg (angle_diff T a)]

/-- `ticksToStop` returns `some N` exactly when the run first stops
moving after `N` ticks, for any sufficient fuel. -/
theorem ticksToStop_spec (ops : MathOps) (dt : ℚ) :
    ∀ (N : ℕ) (s : RobotPhysics),
      (∀ n : ℕ, n < N → is_moving (run ops dt n s) = true) →
      is_moving (run ops dt N s) = false →
      ∀ fuel : ℕ, N ≤ fuel → ticksToStop ops dt fuel s = some N := by
  intro N
  induction N with
  | zero =>
    intro s _ hN fuel _
    have hm : s.moving = false := by
      rw [← run_zero ops dt s]
      exact hN
    cases fuel with
    | zero => show (if s.moving then none else some 0) = some 0; rw [hm]; rfl
    | succ f => show (if s.moving = false then some 0 else _) = some 0; rw [hm]; rfl
  | succ k ih =>
    intro s h0 hN fuel hf
    cases fuel with
    | zero => omega
    | succ f =>
      have hm : s.moving = true := by
        rw [← run_zero ops dt s]
        exact h0 0 (by omega)
      have hrec : ticksToStop ops dt f (update ops s dt) = some k := by
        apply ih
        · intro n hn
          rw [← run_succ]
          exact h0 (n+1) (by omega)
        · rw [← run_succ]
          exact hN
        · omega
      show (if s.moving = false then some 0
        else Option.map (· + 1) (ticksToStop ops dt f (update ops s dt))) =
          some (k+1)
      rw [hm, hrec]
      rfl

/-- Full characterization of a `rotate` command run: with
`|d0| ≤ ε + k·R` (and `> ε + (k-1)·R` unless `k = 0`), the command takes
exactly `k+1` ticks, ends at the normalized target heading having never
moved the position, and traverses exactly `|d0|` of heading. -/
theorem rotate_run_characterization (ops : MathOps) (s : RobotPhysics)
    (delta dt : ℚ) (k : ℕ)
    (hR : 0 < s.rotation_speed * dt)
    (hup : |angle_diff (normalize_angle (s.angle + delta)) s.angle| ≤
      ROTATION_EPSILON + k * (s.rotation_speed * dt))
    (hlo : k = 0 ∨
      ROTATION_EPSILON + ((k:ℚ) - 1) * (s.rotation_speed * dt) <
        |angle_diff (normalize_angle (s.angle + delta)) s.angle|) :
    (∀ fuel : ℕ, k + 1 ≤ fuel →
      ticksToStop ops dt fuel (rotate s delta) = some (k+1)) ∧
      run ops dt (k+1) (rotate s delta) =
        doneRotState s.x s.y s.speed s.rotation_speed
          (normalize_angle (s.angle + delta)) ∧
      travSum ops dt (k+1) (rotate s delta) =
        |angle_diff (normalize_angle (s.angle + delta)) s.angle| := by
  have hmk := rotate_eq_mkRot s delta
  obtain ⟨hdone, htrav⟩ := rot_run_upper ops dt s.x s.y s.speed
    s.rotation_speed (normalize_angle (s.angle + delta)) hR.le none k
    s.angle hup
  rw [hmk]
  refine ⟨?_, hdone, htrav⟩
  intro fuel hfuel
  apply ticksToStop_spec ops dt (k+1) _ _ _ fuel hfuel
  · intro n hn
    rcases hlo with hk0 | hlo
    · subst hk0
      interval_cases n
      rfl
    · rcases k with _ | j
      · have hn0 : n = 0 := by omega
        subst hn0
        rfl
      · have := rot_run_lower ops dt s.x s.y s.speed s.rotation_speed
          (normalize_angle (s.angle + delta)) hR.le none j s.angle
          (by push_cast at hlo ⊢; linarith) n (by omega)
        exact this
  · rw [hdone]
    rfl

/-! ### Claim C7 -/

/-- Claim C7: from heading 350° (Idle), `rotate(+20)` at the default
`dt = 1/60` completes in 15 ticks at heading 10°, having traversed
exactly 20° of heading (wrapping through 360/0), never 340° the long
way. -/
theorem C7_shortest_path_rotation :
    ticksToStop exactOps (1/60) 15
        (rotate (set_position (mkRobotPhysics 1) 0 0 350) 20) = some 15 ∧
      (run exactOps (1/60) 15
        (rotate (set_position (mkRobotPhysics 1) 0 0 350) 20)).angle = 10 ∧
      is_moving (run exactOps (1/60) 15
        (rotate (set_position (mkRobotPhysics 1) 0 0 350) 20)) = false ∧
      travSum exactOps (1/60) 15
        (rotate (set_position (mkRobotPhysics 1) 0 0 350) 20) = 20 := by
  have hs : set_position (mkRobotPhysics 1) 0 0 350 =
      { x := 0, y := 0, angle := 350, speed := 500, rotation_speed := 90,
        target_x := none, target_y := none, target_angle := none,
        moving := false, goto_state := 0, goto_params := none } := by
    norm_num [set_position, mkRobotPhysics, normalize_angle, pymod_eval0,
      DEFAULT_SPEED, DEFAULT_ROTATION_SPEED]
  rw [hs]
  have hT : normalize_angle ((350:ℚ) + 20) = 10 := by
    norm_num [normalize_angle, pymod_eval1]
  have hd : angle_diff 10 350 = 20 := by
    norm_num [angle_diff, nd, pymod_evalm1]
  have hchar := rotate_run_characterization exactOps
    { x := 0, y := 0, angle := 350, speed := 500, rotation_speed := 90,
      target_x := none, target_y := none, target_angle := none,
      moving := false, goto_state := 0, goto_params := none }
    20 (1/60) 14 (by norm_num) (by rw [hT, hd]; norm_num [ROTATION_EPSILON])
    (Or.inr (by rw [hT, hd]; norm_num [ROTATION_EPSILON]))
  obtain ⟨hticks, hdone, htrav⟩ := hchar
  refine ⟨hticks 15 (by norm_num), ?_, ?_, ?_⟩
  · rw [hdone, hT]
    rfl
  · rw [hdone]
    rfl
  · rw [htrav, hT, hd]
    norm_num

/-! ### Claim C10 -/

/-- Claim C10: a completed `rotate(delta)` always ends at
`normalize(h + delta)` with the position untouched, and the total
heading traversed never exceeds 180°; concretely, `rotate(+200)` from
heading 0 traverses only 160° (the short way round, ending at 200 after
108 ticks at `dt = 1/60`), never 200° the long way. -/
theorem C10_rotate_shortest_way :
    (∀ (ops : MathOps) (s : RobotPhysics) (delta dt : ℚ),
      0 ≤ s.rotation_speed * dt →
      ∀ n : ℕ,
        (is_moving (run ops dt n (rotate s delta)) = false →
          (run ops dt n (rotate s delta)).angle =
              normalize_angle (s.angle + delta) ∧
            (run ops dt n (rotate s delta)).x = s.x ∧
            (run ops dt n (rotate s delta)).y = s.y) ∧
          travSum ops dt n (rotate s delta) ≤ 180) ∧
      ticksToStop exactOps (1/60) 108
          (rotate (set_position (mkRobotPhysics 1) 0 0 0) 200) = some 108 ∧
      (run exactOps (1/60) 108
        (rotate (set_position (mkRobotPhysics 1) 0 0 0) 200)).angle = 200 ∧
      travSum exactOps (1/60) 108
        (rotate (set_position (mkRobotPhysics 1) 0 0 0) 200) = 160 := by
  constructor
  · intro ops s delta dt hR n
    have hmk := rotate_eq_mkRot s delta
    constructor
    · intro hstop
      rcases rot_run_cases ops dt s.x s.y s.speed s.rotation_speed
          (normalize_angle (s.angle + delta)) none n s.angle with ⟨b, hb⟩ | hdone
      · rw [hmk, hb] at hstop
        exact absurd hstop (by simp [is_moving, mkRotState])
      · rw [hmk, hdone]
        exact ⟨rfl, rfl, rfl⟩
    · have htle := rot_trav_le ops dt s.x s.y s.speed s.rotation_speed
        (normalize_angle (s.angle + delta)) hR none n s.angle
      rw [hmk]
      exact le_trans htle (nd_abs_le _)
  · have hs : set_position (mkRobotPhysics 1) 0 0 0 =
        { x := 0, y := 0, angle := 0, speed := 500, rotation_speed := 90,
          target_x := none, target_y := none, target_angle := none,
          moving := false, goto_state := 0, goto_params := none } := by
      norm_num [set_position, mkRobotPhysics, normalize_angle, pymod_eval0,
        DEFAULT_SPEED, DEFAULT_ROTATION_SPEED]
    rw [hs]
    have hT : normalize_angle ((0:ℚ) + 200) = 200 := by
      norm_num [normalize_angle, pymod_eval0]
    have hd : angle_diff 200 0 = -160 := by
      norm_num [angle_diff, nd, pymod_eval1]
    have hchar := rotate_run_characterization exactOps
      { x := 0, y := 0, angle := 0, speed := 500, rotation_speed := 90,
        target_x := none, target_y := none, target_angle := none,
        moving := false, goto_state := 0, goto_params := none }
      200 (1/60) 107 (by norm_num) (by rw [hT, hd]; norm_num [ROTATION_EPSILON])
      (Or.inr (by rw [hT, hd]; norm_num [ROTATION_EPSILON]))
    obtain ⟨hticks, hdone, htrav⟩ := hchar
    refine ⟨hticks 108 (by norm_num), ?_, ?_⟩
    · rw [hdone, hT]
      rfl
    · rw [htrav, hT, hd]
      norm_num

/-- Witness for C10: the general statement applied to `rotate(+200)` at
heading 0 after 108 ticks. -/
theorem C10_rotate_shortest_way_witness :
    0 ≤ (set_position (mkRobotPhysics 1) 0 0 0).rotation_speed * (1/60) ∧
      travSum exactOps (1/60) 108
        (rotate (set_position (mkRobotPhysics 1) 0 0 0) 200) ≤ 180 := by
  have h0 : 0 ≤ (set_position (mkRobotPhysics 1) 0 0 0).rotation_speed *
      (1/60 : ℚ) := by
    norm_num [set_position, mkRobotPhysics, DEFAULT_ROTATION_SPEED]
  exact ⟨h0, ((C10_rotate_shortest_way.1 exactOps
    (set_position (mkRobotPhysics 1) 0 0 0) 200 (1/60) h0) 108).2⟩

/-! ### Claim C6, counterexample part -/

/-- Claim C6 counterexample: `rotate(90)` at `dt = 1/60` takes 61 ticks
at multiplier 1 but 31 ticks at multiplier 2 — not exactly half of 61. -/
theorem C6_counterexample :
    ticksToStop exactOps (1/60) 61 (rotate (mkRobotPhysics 1) 90) =
        some 61 ∧
      ticksToStop exactOps (1/60) 31 (rotate (mkRobotPhysics 2) 90) =
        some 31 ∧
      ¬ (61 = 2 * 31) := by
  have hmk1 : mkRobotPhysics 1 =
      { x := 0, y := 0, angle := 0, speed := 500, rotation_speed := 90,
        target_x := none, target_y := none, target_angle := none,
        moving := false, goto_state := 0, goto_params := none } := by
    norm_num [mkRobotPhysics, DEFAULT_SPEED, DEFAULT_ROTATION_SPEED]
  have hmk2 : mkRobotPhysics 2 =
      { x := 0, y := 0, angle := 0, speed := 1000, rotation_speed := 180,
        target_x := none, target_y := none, target_angle := none,
        moving := false, goto_state := 0, goto_params := none } := by
    norm_num [mkRobotPhysics, DEFAULT_SPEED, DEFAULT_ROTATION_SPEED]
  have hT : normalize_angle ((0:ℚ) + 90) = 90 := by
    norm_num [normalize_angle, pymod_eval0]
  have hd : angle_diff 90 0 = 90 := by
    norm_num [angle_diff, nd, pymod_eval0]
  refine ⟨?_, ?_, by norm_num⟩
  · rw [hmk1]
    have hchar := rotate_run_characterization exactOps
      { x := 0, y := 0, angle := 0, speed := 500, rotation_speed := 90,
        target_x := none, target_y := none, target_angle := none,
        moving := false, goto_state := 0, goto_params := none }
      90 (1/60) 60 (by norm_num) (by rw [hT, hd]; norm_num [ROTATION_EPSILON])
      (Or.inr (by rw [hT, hd]; norm_num [ROTATION_EPSILON]))
    exact hchar.1 61 (by norm_num)
  · rw [hmk2]
    have hchar := rotate_run_characterization exactOps
      { x := 0, y := 0, angle := 0, speed := 1000, rotation_speed := 180,
        target_x := none, target_y := none, target_angle := none,
        moving := false, goto_state := 0, goto_params := none }
      90 (1/60) 30 (by norm_num) (by rw [hT, hd]; norm_num [ROTATION_EPSILON])
      (Or.inr (by rw [hT, hd]; norm_num [ROTATION_EPSILON]))
    exact hchar.1 31 (by norm_num)

/-! ### Pure-translation runs (move_forward command and goto phase 2) -/

/-- The state shape while a translation is in progress: the position
lies `lam` short of the target `(tx, ty)` along the unit direction
`(vx, vy)`; `gs`/`gp` are `0`/`none` for a standalone `move_forward` and
`2`/`some params` for the middle phase of a goto. -/
def mkTransState (tx ty vx vy a sp rs : ℚ) (gs : ℕ)
    (gp : Option GotoParams) (lam : ℚ) : RobotPhysics :=
  { x := tx - lam * vx, y := ty - lam * vy, angle := a, speed := sp,
    rotation_speed := rs, target_x := some tx, target_y := some ty,
    target_angle := none, moving := true, goto_state := gs,
    goto_params := gp }

/-- The terminal state of a completed `move_forward` command. -/
def doneFwdState (tx ty a sp rs : ℚ) : RobotPhysics :=
  { x := tx, y := ty, angle := a, speed := sp, rotation_speed := rs,
    target_x := none, target_y := none, target_angle := none,
    moving := false, goto_state := 0, goto_params := none }

theorem update_doneFwd (ops : MathOps) (dt tx ty a sp rs : ℚ) :
    update ops (doneFwdState tx ty a sp rs) dt =
      doneFwdState tx ty a sp rs := by
  simp [update, doneFwdState]

theorem trans_dist (ops : MathOps) {vx vy : ℚ} (lam : ℚ)
    (hv : vx * vx + vy * vy = 1)
    (hsq : ∀ q : ℚ, 0 ≤ q → ops.sqrt (q * q) = q) (hlam : 0 ≤ lam) :
    ops.sqrt (lam * vx * (lam * vx) + lam * vy * (lam * vy)) = lam := by
  have harg : lam * vx * (lam * vx) + lam * vy * (lam * vy) =
      lam * lam := by
    have : lam * vx * (lam * vx) + lam * vy * (lam * vy) =
        lam * lam * (vx * vx + vy * vy) := by ring
    rw [this, hv, mul_one]
  rw [harg, hsq lam hlam]

theorem update_trans_step (ops : MathOps) (dt tx ty vx vy a sp rs : ℚ)
    (gs : ℕ) (gp : Option GotoParams) (lam : ℚ)
    (hv : vx * vx + vy * vy = 1)
    (hsq : ∀ q : ℚ, 0 ≤ q → ops.sqrt (q * q) = q)
    (hlam : 0 < lam) (hstep : sp * dt < lam) :
    update ops (mkTransState tx ty vx vy a sp rs gs gp lam) dt =
      mkTransState tx ty vx vy a sp rs gs gp (lam - sp * dt) := by
  have hdxy : ∀ u : ℚ, tx - (tx - lam * u) = lam * u := by intro u; ring
  have hdist := trans_dist ops lam hv hsq hlam.le
  simp only [update, mkTransState, Bool.true_eq_false, if_false,
    show tx - (tx - lam * vx) = lam * vx from by ring,
    show ty - (ty - lam * vy) = lam * vy from by ring,
    hdist]
  rw [if_pos hlam, min_eq_left hstep.le, if_neg (not_le.2 hstep)]
  have hx : tx - lam * vx + lam * vx / lam * (sp * dt) =
      tx - (lam - sp * dt) * vx := by
    field_simp
    ring
  have hy : ty - lam * vy + lam * vy / lam * (sp * dt) =
      ty - (lam - sp * dt) * vy := by
    field_simp
    ring
  split_ifs <;> simp [hx, hy]

theorem update_trans_snap_fwd (ops : MathOps) (dt tx ty vx vy a sp rs : ℚ)
    (lam : ℚ) (hv : vx * vx + vy * vy = 1)
    (hsq : ∀ q : ℚ, 0 ≤ q → ops.sqrt (q * q) = q)
    (hlam : 0 < lam) (hsnap : lam ≤ sp * dt) :
    update ops (mkTransState tx ty vx vy a sp rs 0 none lam) dt =
      doneFwdState tx ty a sp rs := by
  have hdist := trans_dist ops lam hv hsq hlam.le
  simp only [update, mkTransState, doneFwdState, Bool.true_eq_false, if_false,
    show tx - (tx - lam * vx) = lam * vx from by ring,
    show ty - (ty - lam * vy) = lam * vy from by ring,
    hdist]
  rw [if_pos hlam, min_eq_right hsnap, if_pos (le_refl lam)]
  simp

theorem update_trans_snap_goto (ops : MathOps) (dt tx ty vx vy a sp rs : ℚ)
    (p : GotoParams) (lam : ℚ) (hv : vx * vx + vy * vy = 1)
    (hsq : ∀ q : ℚ, 0 ≤ q → ops.sqrt (q * q) = q)
    (hlam : 0 < lam) (hsnap : lam ≤ sp * dt) :
    update ops (mkTransState tx ty vx vy a sp rs 2 (some p) lam) dt =
      mkRotState tx ty sp rs (some p) p.final_angle a := by
  have hdist := trans_dist ops lam hv hsq hlam.le
  simp only [update, mkTransState, mkRotState, Bool.true_eq_false, if_false,
    show tx - (tx - lam * vx) = lam * vx from by ring,
    show ty - (ty - lam * vy) = lam * vy from by ring,
    hdist]
  rw [if_pos hlam, min_eq_right hsnap, if_pos (le_refl lam)]
  simp

theorem update_trans_zero (ops : MathOps) (dt tx ty vx vy a sp rs : ℚ)
    (gs : ℕ) (gp : Option GotoParams)
    (hsq0 : ops.sqrt 0 = 0) :
    update ops (mkTransState tx ty vx vy a sp rs gs gp 0) dt =
      mkTransState tx ty vx vy a sp rs gs gp 0 := by
  simp only [update, mkTransState, Bool.true_eq_false, if_false,
    show tx - (tx - 0 * vx) = 0 * vx from by ring,
    show ty - (ty - 0 * vy) = 0 * vy from by ring,
    show (0:ℚ) * vx * (0 * vx) + 0 * vy * (0 * vy) = 0 from by ring, hsq0]
  rw [if_neg (lt_irrefl 0)]
  split_ifs <;> simp

/-- Upper master lemma for pure translation: remaining distance `lam`
at most `N` full steps completes within `N` ticks, snapping exactly to
the target. -/
theorem fwd_run_upper (ops : MathOps) (dt tx ty vx vy a sp rs : ℚ)
    (hv : vx * vx + vy * vy = 1)
    (hsq : ∀ q : ℚ, 0 ≤ q → ops.sqrt (q * q) = q) :
    ∀ (N : ℕ) (lam : ℚ), 0 < lam → lam ≤ N * (sp * dt) →
      run ops dt N (mkTransState tx ty vx vy a sp rs 0 none lam) =
        doneFwdState tx ty a sp rs := by
  intro N
  induction N with
  | zero =>
    intro lam hlam hup
    push_cast at hup
    linarith
  | succ k ih =>
    intro lam hlam hup
    by_cases hs : lam ≤ sp * dt
    · rw [run_succ, update_trans_snap_fwd ops dt tx ty vx vy a sp rs lam
        hv hsq hlam hs]
      exact run_fixed ops dt (update_doneFwd ops dt tx ty a sp rs) k
    · push_neg at hs
      rw [run_succ, update_trans_step ops dt tx ty vx vy a sp rs 0 none lam
        hv hsq hlam hs]
      apply ih
      · linarith
      · push_cast at hup ⊢
        linarith

/-- Lower master lemma for pure translation: while more than `N` full
steps remain, the robot is still moving at every tick up to `N`. -/
theorem fwd_run_lower (ops : MathOps) (dt tx ty vx vy a sp rs : ℚ)
    (hv : vx * vx + vy * vy = 1)
    (hsq : ∀ q : ℚ, 0 ≤ q → ops.sqrt (q * q) = q)
    (hR : 0 ≤ sp * dt) :
    ∀ (N : ℕ) (lam : ℚ), (N:ℚ) * (sp * dt) < lam →
      ∀ n : ℕ, n ≤ N →
        is_moving (run ops dt n
          (mkTransState tx ty vx vy a sp rs 0 none lam)) = true := by
  intro N
  induction N with
  | zero =>
    intro lam hlo n hn
    interval_cases n
    rfl
  | succ k ih =>
    intro lam hlo n hn
    have hklam : (0:ℚ) ≤ (k + 1 : ℕ) * (sp * dt) := by positivity
    have hstep : sp * dt < lam := by
      push_cast at hlo hklam
      nlinarith
    have hlam : 0 < lam := by
      push_cast at hlo hklam
      linarith
    cases n with
    | zero => rfl
    | succ j =>
      rw [run_succ, update_trans_step ops dt tx ty vx vy a sp rs 0 none lam
        hv hsq hlam hstep]
      apply ih
      · push_cast at hlo ⊢
        linarith
      · omega

/-- Reachable shapes of a standalone `move_forward` run: still
translating, or done. -/
theorem fwd_run_cases (ops : MathOps) (dt tx ty vx vy a sp rs : ℚ)
    (hv : vx * vx + vy * vy = 1)
    (hsq : ∀ q : ℚ, 0 ≤ q → ops.sqrt (q * q) = q) :
    ∀ (n : ℕ) (lam : ℚ), 0 ≤ lam →
      (∃ mu, 0 ≤ mu ∧
        run ops dt n (mkTransState tx ty vx vy a sp rs 0 none lam) =
          mkTransState tx ty vx vy a sp rs 0 none mu) ∨
        run ops dt n (mkTransState tx ty vx vy a sp rs 0 none lam) =
          doneFwdState tx ty a sp rs := by
  have hsq0 : ops.sqrt 0 = 0 := by
    have := hsq 0 (le_refl 0)
    rw [mul_zero] at this
    exact this
  intro n
  induction n with
  | zero => intro lam hlam; exact Or.inl ⟨lam, hlam, rfl⟩
  | succ k ih =>
    intro lam hlam
    rcases eq_or_lt_of_le hlam with hlam0 | hlam0
    · rw [run_succ, ← hlam0,
        update_trans_zero ops dt tx ty vx vy a sp rs 0 none hsq0]
      exact ih 0 (le_refl 0)
    · by_cases hs : lam ≤ sp * dt
      · rw [run_succ, update_trans_snap_fwd ops dt tx ty vx vy a sp rs lam
          hv hsq hlam0 hs]
        exact Or.inr (run_fixed ops dt (update_doneFwd ops dt tx ty a sp rs) k)
      · push_neg at hs
        rw [run_succ, update_trans_step ops dt tx ty vx vy a sp rs 0 none lam
          hv hsq hlam0 hs]
        exact ih (lam - sp * dt) (by linarith)

theorem move_forward_eq_mkTrans (ops : MathOps) (s : RobotPhysics) (d : ℚ) :
    move_forward ops s d =
      mkTransState (s.x + d * ops.cosd s.angle) (s.y + d * ops.sind s.angle)
        (ops.cosd s.angle) (ops.sind s.angle) s.angle s.speed
        s.rotation_speed 0 none d := by
  cases s
  simp only [move_forward, mkTransState, RobotPhysics.mk.injEq, and_true,
    true_and, eq_self_iff_true]
  exact ⟨by ring, by ring⟩

/-- Full characterization of a `move_forward` run: with `d` between
`N-1` and `N` full steps, the command takes exactly `N` ticks and snaps
exactly onto the projected target, with the heading untouched. -/
theorem forward_run_characterization (ops : MathOps) (s : RobotPhysics)
    (d dt : ℚ) (N : ℕ)
    (hsq : ∀ q : ℚ, 0 ≤ q → ops.sqrt (q * q) = q)
    (hcs : ops.cosd s.angle * ops.cosd s.angle +
      ops.sind s.angle * ops.sind s.angle = 1)
    (hd : 0 < d) (hR : 0 ≤ s.speed * dt)
    (hup : d ≤ N * (s.speed * dt))
    (hlo : ((N:ℚ) - 1) * (s.speed * dt) < d) :
    (∀ fuel : ℕ, N ≤ fuel →
      ticksToStop ops dt fuel (move_forward ops s d) = some N) ∧
      run ops dt N (move_forward ops s d) =
        doneFwdState (s.x + d * ops.cosd s.angle)
          (s.y + d * ops.sind s.angle) s.angle s.speed s.rotation_speed := by
  have hbr := move_forward_eq_mkTrans ops s d
  have hN1 : 1 ≤ N := by
    by_contra hN0
    push_cast [Nat.lt_one_iff.1 (not_le.1 hN0)] at hup
    linarith
  have hdone : run ops dt N (move_forward ops s d) =
      doneFwdState (s.x + d * ops.cosd s.angle)
        (s.y + d * ops.sind s.angle) s.angle s.speed s.rotation_speed := by
    rw [hbr]
    exact fwd_run_upper ops dt _ _ _ _ s.angle s.speed s.rotation_speed
      hcs hsq N d hd hup
  refine ⟨?_, hdone⟩
  intro fuel hfuel
  apply ticksToStop_spec ops dt N _ _ _ fuel hfuel
  · intro n hn
    rw [hbr]
    apply fwd_run_lower ops dt _ _ _ _ s.angle s.speed s.rotation_speed
      hcs hsq hR (N - 1) d _ n (by omega)
    push_cast [Nat.cast_sub hN1] at hlo ⊢
    linarith
  · rw [hdone]
    rfl

/-- `exactOps.sqrt` is exact on squares of nonnegative rationals. -/
theorem exactOps_sqrt_sq : ∀ q : ℚ, 0 ≤ q → exactOps.sqrt (q * q) = q :=
  fun _ h => ratSqrt_sq h

/-- Claim C6 (amended): doubling the multiplier does not halve the tick
count exactly in general.  For a `move_forward(d)` at fixed `dt` whose
tick count at multiplier `m` is `N` (i.e. `d` lies between `N-1` and `N`
full per-tick steps), the same command at multiplier `2m` takes
`(N+1)/2` ticks (integer division) — exactly half only when `N` is
even. -/
theorem C6_doubling_multiplier_tick_count :
    ∀ (m d dt : ℚ) (N : ℕ),
      0 < d → 0 ≤ DEFAULT_SPEED * m * dt →
      d ≤ N * (DEFAULT_SPEED * m * dt) →
      ((N:ℚ) - 1) * (DEFAULT_SPEED * m * dt) < d →
      (∀ fuel : ℕ, N ≤ fuel →
        ticksToStop exactOps dt fuel
          (move_forward exactOps (mkRobotPhysics m) d) = some N) ∧
      (∀ fuel : ℕ, (N+1)/2 ≤ fuel →
        ticksToStop exactOps dt fuel
          (move_forward exactOps (mkRobotPhysics (2*m)) d) =
            some ((N+1)/2)) := by
  intro m d dt N hd hR hup hlo
  have hcs1 : ∀ mu : ℚ,
      exactOps.cosd (mkRobotPhysics mu).angle *
          exactOps.cosd (mkRobotPhysics mu).angle +
        exactOps.sind (mkRobotPhysics mu).angle *
          exactOps.sind (mkRobotPhysics mu).angle = 1 := by
    intro mu
    norm_num [mkRobotPhysics, exactOps, cosdTable, sindTable]
  have hsp : ∀ mu : ℚ, (mkRobotPhysics mu).speed = DEFAULT_SPEED * mu :=
    fun _ => rfl
  constructor
  · exact (forward_run_characterization exactOps (mkRobotPhysics m) d dt N
      exactOps_sqrt_sq (hcs1 m) hd (by rw [hsp]; exact hR)
      (by rw [hsp]; exact hup) (by rw [hsp]; exact hlo)).1
  · have hR2 : (0:ℚ) ≤ (mkRobotPhysics (2*m)).speed * dt := by
      rw [hsp]
      calc (0:ℚ) ≤ 2 * (DEFAULT_SPEED * m * dt) := by linarith
        _ = DEFAULT_SPEED * (2*m) * dt := by ring
    have hsp2 : (mkRobotPhysics (2*m)).speed * dt =
        2 * (DEFAULT_SPEED * m * dt) := by rw [hsp]; ring
    rcases Nat.even_or_odd N with ⟨j, hj⟩ | ⟨j, hj⟩
    · have hj1 : 1 ≤ j := by
        rcases Nat.eq_zero_or_pos j with h0 | h1
        · exfalso
          rw [hj, h0] at hup
          push_cast at hup
          linarith
        · exact h1
      have hhalf : (N+1)/2 = j := by omega
      rw [hhalf]
      exact (forward_run_characterization exactOps (mkRobotPhysics (2*m))
        d dt j exactOps_sqrt_sq (hcs1 (2*m)) hd hR2
        (by
          rw [hsp2]
          push_cast [hj] at hup ⊢
          linarith)
        (by
          rw [hsp2]
          push_cast [hj] at hlo ⊢
          nlinarith [hR])).1
    · have hhalf : (N+1)/2 = j + 1 := by omega
      rw [hhalf]
      exact (forward_run_characterization exactOps (mkRobotPhysics (2*m))
        d dt (j+1) exactOps_sqrt_sq (hcs1 (2*m)) hd hR2
        (by
          rw [hsp2]
          push_cast [hj] at hup ⊢
          nlinarith [hR])
        (by
          rw [hsp2]
          push_cast [hj] at hlo ⊢
          nlinarith [hR])).1

/-- Witness for C6 (amended): `move_forward(1000)` at `dt = 1/60` takes
120 ticks at multiplier 1 and 60 ticks at multiplier 2. -/
theorem C6_doubling_multiplier_tick_count_witness :
    ticksToStop exactOps (1/60) 120
        (move_forward exactOps (mkRobotPhysics 1) 1000) = some 120 ∧
      ticksToStop exactOps (1/60) 60
        (move_forward exactOps (mkRobotPhysics 2) 1000) = some 60 := by
  have h := C6_doubling_multiplier_tick_count 1 1000 (1/60) 120
    (by norm_num) (by norm_num [DEFAULT_SPEED])
    (by norm_num [DEFAULT_SPEED]) (by norm_num [DEFAULT_SPEED])
  obtain ⟨h1, h2⟩ := h
  have h2c := h2 60 (by norm_num)
  norm_num at h2c
  exact ⟨h1 120 le_rfl, h2c⟩

/-! ### Goto runs (move_to command) -/

/-- The state shape during the initial `ROTATING_TO_TARGET` phase of a
goto: heading target set to the bearing, position target pinned to the
current position. -/
def phase1State (x0 y0 sp rs beta : ℚ) (p : GotoParams) (b : ℚ) :
    RobotPhysics :=
  { x := x0, y := y0, angle := b, speed := sp, rotation_speed := rs,
    target_x := some x0, target_y := some y0, target_angle := some beta,
    moving := true, goto_state := 1, goto_params := some p }

theorem move_to_eq_phase1 (ops : MathOps) (s : RobotPhysics)
    (y x final_angle : ℚ) :
    move_to ops s y x final_angle =
      phase1State s.x s.y s.speed s.rotation_speed
        (calculate_angle_to_point ops s x y)
        { target_x := x, target_y := y,
          distance := ops.sqrt ((x - s.x)*(x - s.x) + (y - s.y)*(y - s.y)),
          final_angle := normalize_angle final_angle } s.angle := by
  cases s
  rfl

theorem update_phase1_step (ops : MathOps) (dt x0 y0 sp rs beta : ℚ)
    (p : GotoParams) (b : ℚ) (hsq0 : ops.sqrt 0 = 0)
    (hd : ROTATION_EPSILON < |angle_diff beta b|) :
    update ops (phase1State x0 y0 sp rs beta p b) dt =
      phase1State x0 y0 sp rs beta p
        (normalize_angle (b + pycopysign
          (min (rs * dt) |angle_diff beta b|) (angle_diff beta b))) := by
  simp [update, phase1State, hd, hsq0]

/-- The tick on which the initial rotation of a goto completes behaves
exactly like an `update` of the corresponding translation-phase state:
the heading is snapped to the bearing, the position target switches to
the goto target, and the translation code runs within the same tick. -/
theorem update_phase1_snap (ops : MathOps) (dt x0 y0 sp rs beta vx vy D0 : ℚ)
    (p : GotoParams) (b : ℚ)
    (hx : p.target_x - x0 = D0 * vx) (hy : p.target_y - y0 = D0 * vy)
    (hd : ¬ ROTATION_EPSILON < |angle_diff beta b|) :
    update ops (phase1State x0 y0 sp rs beta p b) dt =
      update ops (mkTransState p.target_x p.target_y vx vy beta sp rs 2
        (some p) D0) dt := by
  have hx0 : x0 = p.target_x - D0 * vx := by linarith
  have hy0 : y0 = p.target_y - D0 * vy := by linarith
  subst hx0
  subst hy0
  simp [update, phase1State, mkTransState, hd]

/-- Claim C4 counterexample: with `dt = 1799/1800` and
`move_to(5, 0, 0)` from the origin (bearing 90), tick 1 is a pure
rotation to 89.95, and tick 2 — which starts with the rotation target 90
still outstanding — both snaps the heading (89.95 to 90) and advances
the position (y: 0 to 5): rotation and translation advance within the
same tick. -/
theorem C4_counterexample :
    (run exactOps (1799/1800) 1
        (move_to exactOps (mkRobotPhysics 1) 5 0 0)).target_angle = some 90 ∧
      (run exactOps (1799/1800) 1
        (move_to exactOps (mkRobotPhysics 1) 5 0 0)).angle = 1799/20 ∧
      (run exactOps (1799/1800) 1
        (move_to exactOps (mkRobotPhysics 1) 5 0 0)).y = 0 ∧
      (run exactOps (1799/1800) 2
        (move_to exactOps (mkRobotPhysics 1) 5 0 0)).angle = 90 ∧
      (run exactOps (1799/1800) 2
        (move_to exactOps (mkRobotPhysics 1) 5 0 0)).y = 5 := by
  have hbridge : move_to exactOps (mkRobotPhysics 1) 5 0 0 =
      phase1State 0 0 500 90 90
        { target_x := 0, target_y := 5, distance := 5, final_angle := 0 }
        0 := by
    rw [move_to_eq_phase1]
    norm_num [mkRobotPhysics, DEFAULT_SPEED, DEFAULT_ROTATION_SPEED,
      phase1State, calculate_angle_to_point, exactOps, atan2dTable,
      normalize_angle, pymod_eval0]
  have had : angle_diff 90 (0:ℚ) = 90 := by
    norm_num [angle_diff, nd, pymod_eval0]
  have htick1 : update exactOps
      (phase1State 0 0 500 90 90
        { target_x := 0, target_y := 5, distance := 5, final_angle := 0 } 0)
      (1799/1800) =
      phase1State 0 0 500 90 90
        { target_x := 0, target_y := 5, distance := 5, final_angle := 0 }
        (1799/20) := by
    rw [update_phase1_step exactOps (1799/1800) 0 0 500 90 90 _ 0
      ratSqrt_zero (by rw [had]; norm_num [ROTATION_EPSILON])]
    rw [had]
    norm_num [pycopysign, min_def, normalize_angle, pymod_eval0,
      abs_of_nonneg]
  have had2 : angle_diff 90 ((1799:ℚ)/20) = 1/20 := by
    norm_num [angle_diff, nd, pymod_eval0]
  have htick2 : update exactOps
      (phase1State 0 0 500 90 90
        { target_x := 0, target_y := 5, distance := 5, final_angle := 0 }
        (1799/20)) (1799/1800) =
      mkRotState 0 5 500 90
        (some { target_x := 0, target_y := 5, distance := 5,
                final_angle := 0 }) 0 90 := by
    rw [update_phase1_snap exactOps (1799/1800) 0 0 500 90 90 0 1 5 _
      (1799/20) (by norm_num) (by norm_num)
      (by rw [had2]; norm_num [ROTATION_EPSILON, abs_of_nonneg])]
    exact update_trans_snap_goto exactOps (1799/1800) 0 5 0 1 90 500 90 _ 5
      (by norm_num) exactOps_sqrt_sq (by norm_num) (by norm_num)
  have e1 : run exactOps (1799/1800) 1
      (move_to exactOps (mkRobotPhysics 1) 5 0 0) =
      phase1State 0 0 500 90 90
        { target_x := 0, target_y := 5, distance := 5, final_angle := 0 }
        (1799/20) := by
    rw [run_one, hbridge, htick1]
  have e2 : run exactOps (1799/1800) 2
      (move_to exactOps (mkRobotPhysics 1) 5 0 0) =
      mkRotState 0 5 500 90
        (some { target_x := 0, target_y := 5, distance := 5,
                final_angle := 0 }) 0 90 := by
    rw [show (2:ℕ) = 1+1 from rfl, run_succ', e1, htick2]
  rw [e1, e2]
  exact ⟨rfl, rfl, rfl, rfl, rfl⟩

/-! ### Single-tick exactness of the two snap branches -/

/-- The rotation paragraph of `update` (`# Handle rotation`). -/
def rotation_block (s : RobotPhysics) (dt : ℚ) : RobotPhysics :=
  match s.target_angle with
  | none => s
  | some ta =>
    let ad := angle_diff ta s.angle
    if ROTATION_EPSILON < |ad| then
      let rotation := min (s.rotation_speed * dt) |ad|
      { s with angle := normalize_angle (s.angle + pycopysign rotation ad) }
    else
      let s2 := { s with angle := ta, target_angle := none }
      if s2.goto_state = 0 then
        { s2 with moving := false }
      else if s2.goto_state = 1 then
        match s2.goto_params with
        | some p =>
          { s2 with
            target_x := some p.target_x
            target_y := some p.target_y
            goto_state := 2 }
        | none => s2
      else if s2.goto_state = 3 then
        { s2 with goto_state := 0, goto_params := none, moving := false }
      else s2

/-- The translation paragraph of `update` (`# Handle position movement`). -/
def translation_block (ops : MathOps) (s : RobotPhysics) (dt : ℚ) :
    RobotPhysics :=
  match s.target_x, s.target_y with
  | some tx, some ty =>
    let dx := tx - s.x
    let dy := ty - s.y
    let distance := ops.sqrt (dx*dx + dy*dy)
    if 0 < distance then
      let move_distance := min (s.speed * dt) distance
      let s4 :=
        { s with
          x := s.x + dx / distance * move_distance
          y := s.y + dy / distance * move_distance }
      if distance ≤ move_distance then
        let s5 :=
          { s4 with
            x := tx
            y := ty
            target_x := none
            target_y := none }
        if s5.goto_state = 2 then
          match s5.goto_params with
          | some p =>
            { s5 with
              target_angle := some p.final_angle
              goto_state := 3 }
          | none => s5
        else s5
      else s4
    else s
  | _, _ => s

/-- The closing `# Update moving state` paragraph of `update`. -/
def recompute_moving (s : RobotPhysics) : RobotPhysics :=
  if s.goto_state = 0 then
    { s with moving := s.target_x.isSome || s.target_angle.isSome }
  else s

/-- On a moving state, `update` is exactly the sequential composition of
its three paragraphs. -/
theorem update_decomp (ops : MathOps) (s : RobotPhysics) (dt : ℚ)
    (hm : s.moving = true) :
    update ops s dt =
      recompute_moving (translation_block ops (rotation_block s dt) dt) := by
  obtain ⟨x, y, a, sp, rs, tgx, tgy, tga, mv, gs, gp⟩ := s
  obtain rfl : mv = true := hm
  rfl

theorem rotation_block_angle_snap (s : RobotPhysics) (dt T : ℚ)
    (hta : s.target_angle = some T)
    (hd : ¬ ROTATION_EPSILON < |angle_diff T s.angle|) :
    (rotation_block s dt).angle = T := by
  obtain ⟨x, y, a, sp, rs, tgx, tgy, tga, mv, gs, gp⟩ := s
  obtain rfl : tga = some T := hta
  have hd2 : ¬ ROTATION_EPSILON < |angle_diff T a| := hd
  simp only [rotation_block, hd2, if_false, ite_false]
  split_ifs <;> cases gp <;> rfl

theorem rotation_block_none (s : RobotPhysics) (dt : ℚ)
    (hta : s.target_angle = none) :
    rotation_block s dt = s := by
  obtain ⟨x, y, a, sp, rs, tgx, tgy, tga, mv, gs, gp⟩ := s
  obtain rfl : tga = none := hta
  rfl

theorem translation_block_angle (ops : MathOps) (s : RobotPhysics)
    (dt : ℚ) : (translation_block ops s dt).angle = s.angle := by
  obtain ⟨x, y, a, sp, rs, tgx, tgy, tga, mv, gs, gp⟩ := s
  cases tgx <;> cases tgy <;> simp only [translation_block] <;>
    (try split_ifs) <;> (try cases gp) <;> rfl

theorem translation_block_snap (ops : MathOps) (s : RobotPhysics)
    (dt tx ty : ℚ) (htx : s.target_x = some tx) (hty : s.target_y = some ty)
    (hpos : 0 < ops.sqrt ((tx - s.x)*(tx - s.x) + (ty - s.y)*(ty - s.y)))
    (hle : ops.sqrt ((tx - s.x)*(tx - s.x) + (ty - s.y)*(ty - s.y)) ≤
      s.speed * dt) :
    (translation_block ops s dt).x = tx ∧
      (translation_block ops s dt).y = ty := by
  obtain ⟨x, y, a, sp, rs, tgx, tgy, tga, mv, gs, gp⟩ := s
  obtain rfl : tgx = some tx := htx
  obtain rfl : tgy = some ty := hty
  have hpos2 : 0 < ops.sqrt ((tx - x)*(tx - x) + (ty - y)*(ty - y)) := hpos
  have hle2 : ops.sqrt ((tx - x)*(tx - x) + (ty - y)*(ty - y)) ≤
      sp * dt := hle
  simp only [translation_block]
  rw [if_pos hpos2, min_eq_right hle2, if_pos (le_refl _)]
  split_ifs <;> cases gp <;> exact ⟨rfl, rfl⟩

theorem recompute_moving_pose (s : RobotPhysics) :
    (recompute_moving s).x = s.x ∧ (recompute_moving s).y = s.y ∧
      (recompute_moving s).angle = s.angle := by
  unfold recompute_moving
  split_ifs <;> exact ⟨rfl, rfl, rfl⟩

/-- When a tick starts with the rotation target within
`ROTATION_EPSILON`, `update` snaps the heading exactly onto the target:
the heading error after the rotation phase completes is zero. -/
theorem update_rot_snap_exact (ops : MathOps) (s : RobotPhysics)
    (dt T : ℚ) (hm : s.moving = true) (hta : s.target_angle = some T)
    (hd : |angle_diff T s.angle| ≤ ROTATION_EPSILON) :
    (update ops s dt).angle = T := by
  rw [update_decomp ops s dt hm]
  rw [(recompute_moving_pose _).2.2, translation_block_angle]
  exact rotation_block_angle_snap s dt T hta (not_lt.2 hd)

/-- When a tick starts with no rotation target and the remaining
distance within one step, `update` snaps the position exactly onto the
target. -/
theorem update_trans_snap_exact (ops : MathOps) (s : RobotPhysics)
    (dt tx ty : ℚ) (hm : s.moving = true) (hta : s.target_angle = none)
    (htx : s.target_x = some tx) (hty : s.target_y = some ty)
    (hpos : 0 < ops.sqrt ((tx - s.x)*(tx - s.x) + (ty - s.y)*(ty - s.y)))
    (hle : ops.sqrt ((tx - s.x)*(tx - s.x) + (ty - s.y)*(ty - s.y)) ≤
      s.speed * dt) :
    (update ops s dt).x = tx ∧ (update ops s dt).y = ty := by
  rw [update_decomp ops s dt hm, rotation_block_none s dt hta]
  obtain ⟨hsx, hsy⟩ := translation_block_snap ops s dt tx ty htx hty hpos hle
  rw [(recompute_moving_pose _).1, (recompute_moving_pose _).2.1]
  exact ⟨hsx, hsy⟩

/-! ### The goto shape invariant and final-pose determinacy -/

/-- The four reachable state shapes of a goto run: initial rotation,
translation with `lam` still to go, final rotation, done. -/
def gotoShape (sp rs beta vx vy x0 y0 : ℚ) (p : GotoParams)
    (s : RobotPhysics) : Prop :=
  (∃ b, s = phase1State x0 y0 sp rs beta p b) ∨
    (∃ lam, 0 ≤ lam ∧
      s = mkTransState p.target_x p.target_y vx vy beta sp rs 2
        (some p) lam) ∨
    (∃ b, s = mkRotState p.target_x p.target_y sp rs (some p)
      p.final_angle b) ∨
    s = doneRotState p.target_x p.target_y sp rs p.final_angle

theorem gotoShape_update (ops : MathOps)
    (dt sp rs beta vx vy x0 y0 D0 : ℚ) (p : GotoParams)
    (hv : vx * vx + vy * vy = 1)
    (hsq : ∀ q : ℚ, 0 ≤ q → ops.sqrt (q * q) = q)
    (hx : p.target_x - x0 = D0 * vx) (hy : p.target_y - y0 = D0 * vy)
    (hD0 : 0 ≤ D0) (s : RobotPhysics)
    (h : gotoShape sp rs beta vx vy x0 y0 p s) :
    gotoShape sp rs beta vx vy x0 y0 p (update ops s dt) := by
  have hsq0 : ops.sqrt 0 = 0 := by
    have h0 := hsq 0 le_rfl
    rw [mul_zero] at h0
    exact h0
  rcases h with ⟨b, rfl⟩ | ⟨lam, hlam, rfl⟩ | ⟨b, rfl⟩ | rfl
  · by_cases hd : ROTATION_EPSILON < |angle_diff beta b|
    · rw [update_phase1_step ops dt x0 y0 sp rs beta p b hsq0 hd]
      exact Or.inl ⟨_, rfl⟩
    · rw [update_phase1_snap ops dt x0 y0 sp rs beta vx vy D0 p b hx hy hd]
      rcases eq_or_lt_of_le hD0 with hD0e | hD0p
      · rw [← hD0e, update_trans_zero ops dt p.target_x p.target_y vx vy
          beta sp rs 2 (some p) hsq0]
        exact Or.inr (Or.inl ⟨0, le_rfl, rfl⟩)
      · rcases le_or_lt D0 (sp * dt) with hle | hlt
        · rw [update_trans_snap_goto ops dt p.target_x p.target_y vx vy
            beta sp rs p D0 hv hsq hD0p hle]
          exact Or.inr (Or.inr (Or.inl ⟨beta, rfl⟩))
        · rw [update_trans_step ops dt p.target_x p.target_y vx vy beta
            sp rs 2 (some p) D0 hv hsq hD0p hlt]
          exact Or.inr (Or.inl ⟨D0 - sp * dt, by linarith, rfl⟩)
  · rcases eq_or_lt_of_le hlam with hlam0 | hlam0
    · rw [← hlam0, update_trans_zero ops dt p.target_x p.target_y vx vy
        beta sp rs 2 (some p) hsq0]
      exact Or.inr (Or.inl ⟨0, le_rfl, rfl⟩)
    · rcases le_or_lt lam (sp * dt) with hle | hlt
      · rw [update_trans_snap_goto ops dt p.target_x p.target_y vx vy beta
          sp rs p lam hv hsq hlam0 hle]
        exact Or.inr (Or.inr (Or.inl ⟨beta, rfl⟩))
      · rw [update_trans_step ops dt p.target_x p.target_y vx vy beta sp rs
          2 (some p) lam hv hsq hlam0 hlt]
        exact Or.inr (Or.inl ⟨lam - sp * dt, by linarith, rfl⟩)
  · by_cases hd : ROTATION_EPSILON < |angle_diff p.final_angle b|
    · rw [update_mkRot_step ops dt p.target_x p.target_y sp rs
        p.final_angle b (some p) hd]
      exact Or.inr (Or.inr (Or.inl ⟨_, rfl⟩))
    · rw [update_mkRot_snap ops dt p.target_x p.target_y sp rs
        p.final_angle b (some p) hd]
      exact Or.inr (Or.inr (Or.inr rfl))
  · rw [update_doneRot]
    exact Or.inr (Or.inr (Or.inr rfl))

/-- A goto run that reports completion has snapped exactly onto the
commanded pose: position equal to the goto target and heading equal to
the normalized final angle, whatever `dt` was used. -/
theorem goto_completion (ops : MathOps) (s0 : RobotPhysics)
    (gy gx gf dt vx vy D0 : ℚ) (n : ℕ)
    (hv : vx * vx + vy * vy = 1)
    (hsq : ∀ q : ℚ, 0 ≤ q → ops.sqrt (q * q) = q)
    (hx : gx - s0.x = D0 * vx) (hy : gy - s0.y = D0 * vy) (hD0 : 0 ≤ D0)
    (hstop : is_moving (run ops dt n (move_to ops s0 gy gx gf)) = false) :
    get_position (run ops dt n (move_to ops s0 gy gx gf)) =
      (gx, gy, normalize_angle gf) := by
  have hbr := move_to_eq_phase1 ops s0 gy gx gf
  have hshape : ∀ m : ℕ,
      gotoShape s0.speed s0.rotation_speed
        (calculate_angle_to_point ops s0 gx gy) vx vy s0.x s0.y
        { target_x := gx, target_y := gy,
          distance :=
            ops.sqrt ((gx - s0.x)*(gx - s0.x) + (gy - s0.y)*(gy - s0.y)),
          final_angle := normalize_angle gf }
        (run ops dt m (move_to ops s0 gy gx gf)) := by
    intro m
    induction m with
    | zero =>
      rw [run_zero, hbr]
      exact Or.inl ⟨_, rfl⟩
    | succ k ih =>
      rw [run_succ']
      exact gotoShape_update ops dt s0.speed s0.rotation_speed
        (calculate_angle_to_point ops s0 gx gy) vx vy s0.x s0.y D0 _
        hv hsq hx hy hD0 _ ih
  rcases hshape n with ⟨b, hb⟩ | ⟨lam, hlam, hb⟩ | ⟨b, hb⟩ | hb
  · rw [hb] at hstop
    exact absurd hstop (by simp [is_moving, phase1State])
  · rw [hb] at hstop
    exact absurd hstop (by simp [is_moving, mkTransState])
  · rw [hb] at hstop
    exact absurd hstop (by simp [is_moving, mkRotState])
  · rw [hb]
    rfl

/-! ### Claim C8 -/

/-- Claim C8: `update` never overshoots — on the tick where the rotation
phase completes the heading is snapped exactly onto the target (error
`0 ≤ ROTATION_EPSILON`), and the final translation step snaps the
position exactly onto the target; consequently the final pose of a
command driven to completion is independent of the `dt` granularity:
a completed `rotate`, `move_forward`, or `move_to` ends at the exact
pose determined by the command alone, so any two completing runs of the
same command (e.g. ten ticks of `dt = 1/60` versus one-tenth as many
ticks of `dt = 10/60`) end at equal poses. -/
theorem C8_no_overshoot_dt_independent :
    (∀ (ops : MathOps) (s : RobotPhysics) (dt T : ℚ),
      s.moving = true → s.target_angle = some T →
      |angle_diff T s.angle| ≤ ROTATION_EPSILON →
      (update ops s dt).angle = T) ∧
    (∀ (ops : MathOps) (s : RobotPhysics) (dt tx ty : ℚ),
      s.moving = true → s.target_angle = none →
      s.target_x = some tx → s.target_y = some ty →
      0 < ops.sqrt ((tx - s.x)*(tx - s.x) + (ty - s.y)*(ty - s.y)) →
      ops.sqrt ((tx - s.x)*(tx - s.x) + (ty - s.y)*(ty - s.y)) ≤
        s.speed * dt →
      (update ops s dt).x = tx ∧ (update ops s dt).y = ty) ∧
    (∀ (ops : MathOps) (s : RobotPhysics) (delta dt : ℚ) (n : ℕ),
      is_moving (run ops dt n (rotate s delta)) = false →
      get_position (run ops dt n (rotate s delta)) =
        (s.x, s.y, normalize_angle (s.angle + delta))) ∧
    (∀ (ops : MathOps) (s : RobotPhysics) (d dt : ℚ) (n : ℕ),
      (∀ q : ℚ, 0 ≤ q → ops.sqrt (q * q) = q) →
      ops.cosd s.angle * ops.cosd s.angle +
        ops.sind s.angle * ops.sind s.angle = 1 →
      0 ≤ d →
      is_moving (run ops dt n (move_forward ops s d)) = false →
      get_position (run ops dt n (move_forward ops s d)) =
        (s.x + d * ops.cosd s.angle, s.y + d * ops.sind s.angle,
          s.angle)) ∧
    (∀ (ops : MathOps) (s0 : RobotPhysics)
        (gy gx gf vx vy D0 dt1 dt2 : ℚ) (n1 n2 : ℕ),
      vx * vx + vy * vy = 1 →
      (∀ q : ℚ, 0 ≤ q → ops.sqrt (q * q) = q) →
      gx - s0.x = D0 * vx → gy - s0.y = D0 * vy → 0 ≤ D0 →
      is_moving (run ops dt1 n1 (move_to ops s0 gy gx gf)) = false →
      is_moving (run ops dt2 n2 (move_to ops s0 gy gx gf)) = false →
      get_position (run ops dt1 n1 (move_to ops s0 gy gx gf)) =
          (gx, gy, normalize_angle gf) ∧
        get_position (run ops dt1 n1 (move_to ops s0 gy gx gf)) =
          get_position (run ops dt2 n2 (move_to ops s0 gy gx gf))) := by
  refine ⟨update_rot_snap_exact, update_trans_snap_exact, ?_, ?_, ?_⟩
  · intro ops s delta dt n hstop
    have hmk := rotate_eq_mkRot s delta
    rcases rot_run_cases ops dt s.x s.y s.speed s.rotation_speed
        (normalize_angle (s.angle + delta)) none n s.angle with
      ⟨b, hb⟩ | hdone
    · rw [hmk, hb] at hstop
      exact absurd hstop (by simp [is_moving, mkRotState])
    · rw [hmk, hdone]
      rfl
  · intro ops s d dt n hsq hcs hd hstop
    have hbr := move_forward_eq_mkTrans ops s d
    rcases fwd_run_cases ops dt (s.x + d * ops.cosd s.angle)
        (s.y + d * ops.sind s.angle) (ops.cosd s.angle)
        (ops.sind s.angle) s.angle s.speed s.rotation_speed hcs hsq n d
        hd with ⟨mu, hmu, hb⟩ | hdone
    · rw [hbr, hb] at hstop
      exact absurd hstop (by simp [is_moving, mkTransState])
    · rw [hbr, hdone]
      rfl
  · intro ops s0 gy gx gf vx vy D0 dt1 dt2 n1 n2 hv hsq hx hy hD0 h1 h2
    have g1 := goto_completion ops s0 gy gx gf dt1 vx vy D0 n1
      hv hsq hx hy hD0 h1
    have g2 := goto_completion ops s0 gy gx gf dt2 vx vy D0 n2
      hv hsq hx hy hD0 h2
    exact ⟨g1, by rw [g1, g2]⟩

/-- Witness for C8: the same `move_to(5, 0, 90)` from the origin driven
to completion with `dt = 2` (3 ticks) and with `dt = 1/2` (4 ticks) ends
at the identical exact pose `(0, 5, 90)`. -/
theorem C8_no_overshoot_dt_independent_witness :
    get_position (run exactOps 2 3
        (move_to exactOps (mkRobotPhysics 1) 5 0 90)) =
        (0, 5, normalize_angle 90) ∧
      get_position (run exactOps 2 3
        (move_to exactOps (mkRobotPhysics 1) 5 0 90)) =
        get_position (run exactOps (1/2) 4
          (move_to exactOps (mkRobotPhysics 1) 5 0 90)) := by
  have hbridge : move_to exactOps (mkRobotPhysics 1) 5 0 90 =
      phase1State 0 0 500 90 90
        { target_x := 0, target_y := 5, distance := 5, final_angle := 90 }
        0 := by
    rw [move_to_eq_phase1]
    norm_num [mkRobotPhysics, DEFAULT_SPEED, DEFAULT_ROTATION_SPEED,
      phase1State, calculate_angle_to_point, exactOps, atan2dTable,
      normalize_angle, pymod_eval0]
  have had0 : angle_diff 90 (0:ℚ) = 90 := by
    norm_num [angle_diff, nd, pymod_eval0]
  have had45 : angle_diff 90 (45:ℚ) = 45 := by
    norm_num [angle_diff, nd, pymod_eval0]
  have had90 : angle_diff 90 (90:ℚ) = 0 := by
    norm_num [angle_diff, nd, pymod_eval0]
  have hsnap90 : ¬ ROTATION_EPSILON < |angle_diff 90 (90:ℚ)| := by
    rw [had90]
    norm_num [ROTATION_EPSILON]
  have ht1 : update exactOps
      (phase1State 0 0 500 90 90
        { target_x := 0, target_y := 5, distance := 5, final_angle := 90 }
        0) 2 =
      phase1State 0 0 500 90 90
        { target_x := 0, target_y := 5, distance := 5, final_angle := 90 }
        90 := by
    rw [update_phase1_step exactOps 2 0 0 500 90 90 _ 0 ratSqrt_zero
      (by rw [had0]; norm_num [ROTATION_EPSILON, abs_of_nonneg])]
    rw [had0]
    norm_num [pycopysign, min_def, normalize_angle, pymod_eval0,
      abs_of_nonneg]
  have ht2 : ∀ dt : ℚ, 5 ≤ 500 * dt → update exactOps
      (phase1State 0 0 500 90 90
        { target_x := 0, target_y := 5, distance := 5, final_angle := 90 }
        90) dt =
      mkRotState 0 5 500 90
        (some { target_x := 0, target_y := 5, distance := 5,
                final_angle := 90 }) 90 90 := by
    intro dt hdt
    rw [update_phase1_snap exactOps dt 0 0 500 90 90 0 1 5 _ 90
      (by norm_num) (by norm_num) hsnap90]
    exact update_trans_snap_goto exactOps dt 0 5 0 1 90 500 90 _ 5
      (by norm_num) exactOps_sqrt_sq (by norm_num) hdt
  have ht3 : ∀ dt : ℚ, update exactOps
      (mkRotState 0 5 500 90
        (some { target_x := 0, target_y := 5, distance := 5,
                final_angle := 90 }) 90 90) dt =
      doneRotState 0 5 500 90 90 := by
    intro dt
    exact update_mkRot_snap exactOps dt 0 5 500 90 90 90 _ hsnap90
  have h3 : is_moving (run exactOps 2 3
      (move_to exactOps (mkRobotPhysics 1) 5 0 90)) = false := by
    rw [show (3:ℕ) = 2+1 from rfl, run_succ',
      show (2:ℕ) = 1+1 from rfl, run_succ', run_one, hbridge, ht1,
      ht2 2 (by norm_num), ht3 2]
    rfl
  have ht1b : update exactOps
      (phase1State 0 0 500 90 90
        { target_x := 0, target_y := 5, distance := 5, final_angle := 90 }
        0) (1/2) =
      phase1State 0 0 500 90 90
        { target_x := 0, target_y := 5, distance := 5, final_angle := 90 }
        45 := by
    rw [update_phase1_step exactOps (1/2) 0 0 500 90 90 _ 0 ratSqrt_zero
      (by rw [had0]; norm_num [ROTATION_EPSILON, abs_of_nonneg])]
    rw [had0]
    norm_num [pycopysign, min_def, normalize_angle, pymod_eval0,
      abs_of_nonneg]
  have ht2b : update exactOps
      (phase1State 0 0 500 90 90
        { target_x := 0, target_y := 5, distance := 5, final_angle := 90 }
        45) (1/2) =
      phase1State 0 0 500 90 90
        { target_x := 0, target_y := 5, distance := 5, final_angle := 90 }
        90 := by
    rw [update_phase1_step exactOps (1/2) 0 0 500 90 90 _ 45 ratSqrt_zero
      (by rw [had45]; norm_num [ROTATION_EPSILON, abs_of_nonneg])]
    rw [had45]
    norm_num [pycopysign, min_def, normalize_angle, pymod_eval0,
      abs_of_nonneg]
  have h4 : is_moving (run exactOps (1/2) 4
      (move_to exactOps (mkRobotPhysics 1) 5 0 90)) = false := by
    rw [show (4:ℕ) = 3+1 from rfl, run_succ',
      show (3:ℕ) = 2+1 from rfl, run_succ',
      show (2:ℕ) = 1+1 from rfl, run_succ', run_one, hbridge, ht1b, ht2b,
      ht2 (1/2) (by norm_num), ht3 (1/2)]
    rfl
  exact C8_no_overshoot_dt_independent.2.2.2.2 exactOps
    (mkRobotPhysics 1) 5 0 90 0 1 5 2 (1/2) 3 4 (by norm_num)
    exactOps_sqrt_sq (by norm_num [mkRobotPhysics])
    (by norm_num [mkRobotPhysics]) (by norm_num) h3 h4

end Eurobot
